import Mathlib

/-
Verification development for the `custom_zone` Home Assistant integration.

The embedded code is:
  * `sensor.py`  `CustomZoneSensor._point_in_polygon`        (tolerance 1e-5, x = longitude)
  * `sensor.py`  `CustomZoneSensor._distance_to_polygon_meters`
  * `sensor.py`  `CustomZoneSensor._handle_tracker_state_update` and
    `CustomZoneSensor._update_state_and_attributes`
  * `binary_sensor.py` `CustomZoneBinarySensor._point_in_polygon` (tolerance 1e-6, x = latitude)
  * `const.py`   `COORD_TOLERANCE`

Polygon vertices and query points are (latitude, longitude) pairs of exact rationals;
Python float arithmetic is modelled exactly, with a dedicated type `PyF` (a rational or
NaN) where non-finite inputs matter.  The distance function, which uses `math.cos` and
`math.hypot`, is modelled over the reals.
-/

/-- A polygon vertex or query point: (latitude, longitude) in decimal degrees. -/
abbrev Pt := ℚ × ℚ

/-- `const.py`: `COORD_TOLERANCE = 1e-5`. -/
def COORD_TOLERANCE : ℚ := 1 / 100000

/-- The cyclic edge list `(poly[i], poly[(i+1) % n])` for `i in range(n)`, the order in
which both near-boundary passes and the distance loop traverse the polygon. -/
def cycleEdges (poly : List Pt) : List (Pt × Pt) := poly.zip (poly.rotate 1)

/-- Vertex-coincidence check of `sensor.py` `_point_in_polygon` (lines 218-219):
`abs(p1x - x) < COORD_TOLERANCE and abs(p1y - y) < COORD_TOLERANCE`, where the sensor
uses `x = lon`, `y = lat`, `p1x, p1y = p1[1], p1[0]`. -/
def vertexHit (x y tol : ℚ) (p1 : Pt) : Bool :=
  decide (|p1.2 - x| < tol) && decide (|p1.1 - y| < tol)

/-- Bounding-box pre-check plus collinearity (cross-product) test of `sensor.py`
`_point_in_polygon` (lines 222-228). -/
def edgeCross (x y tol : ℚ) (e : Pt × Pt) : Bool :=
  decide (x ≥ min e.1.2 e.2.2 - tol) && decide (x ≤ max e.1.2 e.2.2 + tol) &&
  decide (y ≥ min e.1.1 e.2.1 - tol) && decide (y ≤ max e.1.1 e.2.1 + tol) &&
  decide (|(y - e.1.1) * (e.2.2 - e.1.2) - (e.2.1 - e.1.1) * (x - e.1.2)| < tol)

/-- One iteration of the near-boundary pass of `sensor.py` `_point_in_polygon`
(lines 212-228): vertex coincidence, or bounding box plus collinearity. -/
def edgeNear (x y tol : ℚ) (e : Pt × Pt) : Bool :=
  vertexHit x y tol e.1 || edgeCross x y tol e

/-- The whole near-boundary pass: some edge of the cyclic edge list triggers. -/
def boundaryHit (poly : List Pt) (x y tol : ℚ) : Bool :=
  (cycleEdges poly).any (edgeNear x y tol)

/-- One iteration of the ray-casting loop of `sensor.py` `_point_in_polygon`
(lines 235-243), toggling the `inside` flag.  `p1x, p1y = p1[1], p1[0]`. -/
def rayStep (x y : ℚ) (p1 p2 : Pt) (inside : Bool) : Bool :=
  if y > min p1.1 p2.1 ∧ y ≤ max p1.1 p2.1 ∧ x ≤ max p1.2 p2.2 ∧ p1.1 ≠ p2.1 then
    if p1.2 = p2.2 ∨ x ≤ (y - p1.1) * (p2.2 - p1.2) / (p2.1 - p1.1) + p1.2 then
      !inside
    else inside
  else inside

/-- The ray-casting loop: `p2` runs over the list while `p1` carries the previous
vertex. -/
def rayCastAux (x y : ℚ) : List Pt → Pt → Bool → Bool
  | [], _, inside => inside
  | p2 :: rest, p1, inside => rayCastAux x y rest p2 (rayStep x y p1 p2 inside)

/-- The ray-casting pass of `sensor.py` `_point_in_polygon` (lines 230-245): `p1` starts
at `poly[-1]` and `p2` runs over `poly[0] .. poly[n-1]`. -/
def rayCast (poly : List Pt) (x y : ℚ) : Bool :=
  match poly with
  | [] => false
  | p :: rest => rayCastAux x y (p :: rest) ((p :: rest).getLastD p) false

/-- `sensor.py` `_point_in_polygon(lat, lon)`: the near-boundary pass returns `True`
immediately; otherwise the ray-cast parity is returned.  Internally `x = lon`,
`y = lat`. -/
def sensor_point_in_polygon (poly : List Pt) (lat lon : ℚ) : Bool :=
  boundaryHit poly lon lat COORD_TOLERANCE || rayCast poly lon lat

/-- The spec's ternary classification result. -/
inductive ZoneClass
  | Inside
  | OnBoundary
  | Outside
deriving DecidableEq

/-- The spec-level `classify_point(polygon, point, tolerance)` realised by the sensor
code: the near-boundary pass decides `OnBoundary` first, otherwise the ray-cast parity
decides `Inside` / `Outside`. -/
def classify_point (poly : List Pt) (lat lon tol : ℚ) : ZoneClass :=
  if boundaryHit poly lon lat tol then .OnBoundary
  else if rayCast poly lon lat then .Inside else .Outside

/-- Classification as a function of an arbitrary parity bit: used to express that the
parity result is never consulted when the near-boundary pass triggers. -/
def classify_of_parity (poly : List Pt) (lat lon tol : ℚ) (parity : Bool) : ZoneClass :=
  if boundaryHit poly lon lat tol then .OnBoundary
  else if parity then .Inside else .Outside

/-- Vertex-coincidence check of `binary_sensor.py` `_point_in_polygon` (line 104) with
its hard-coded tolerance `0.000001`; there `x = lat`, `y = lon` and `p1[0]` is compared
against `x`. -/
def binVertexHit (x y : ℚ) (p1 : Pt) : Bool :=
  decide (|p1.1 - x| < 1 / 1000000) && decide (|p1.2 - y| < 1 / 1000000)

/-- Bounding-box plus collinearity check of `binary_sensor.py` `_point_in_polygon`
(lines 107-115), with `p1x, p1y = p1` so the first axis is latitude. -/
def binEdgeCross (x y : ℚ) (e : Pt × Pt) : Bool :=
  decide (x ≥ min e.1.1 e.2.1 - 1 / 1000000) && decide (x ≤ max e.1.1 e.2.1 + 1 / 1000000) &&
  decide (y ≥ min e.1.2 e.2.2 - 1 / 1000000) && decide (y ≤ max e.1.2 e.2.2 + 1 / 1000000) &&
  decide (|(y - e.1.2) * (e.2.1 - e.1.1) - (e.2.2 - e.1.2) * (x - e.1.1)| < 1 / 1000000)

/-- One iteration of the near-boundary pass of `binary_sensor.py` `_point_in_polygon`. -/
def binEdgeNear (x y : ℚ) (e : Pt × Pt) : Bool :=
  binVertexHit x y e.1 || binEdgeCross x y e

/-- One iteration of the ray-casting loop of `binary_sensor.py` `_point_in_polygon`
(lines 122-130): same formula as the sensor but with `p1x, p1y = p1`, i.e. the first
axis is latitude. -/
def binRayStep (x y : ℚ) (p1 p2 : Pt) (inside : Bool) : Bool :=
  if y > min p1.2 p2.2 ∧ y ≤ max p1.2 p2.2 ∧ x ≤ max p1.1 p2.1 ∧ p1.2 ≠ p2.2 then
    if p1.1 = p2.1 ∨ x ≤ (y - p1.2) * (p2.1 - p1.1) / (p2.2 - p1.2) + p1.1 then
      !inside
    else inside
  else inside

/-- Ray-casting loop of the binary sensor, carrying `p1`. -/
def binRayCastAux (x y : ℚ) : List Pt → Pt → Bool → Bool
  | [], _, inside => inside
  | p2 :: rest, p1, inside => binRayCastAux x y rest p2 (binRayStep x y p1 p2 inside)

/-- Ray-casting pass of `binary_sensor.py` `_point_in_polygon` (lines 117-130): `p1`
starts at `poly[0]` and `p2` runs over `poly[i % n]` for `i in range(n + 1)`. -/
def binRayCast (poly : List Pt) (x y : ℚ) : Bool :=
  match poly with
  | [] => false
  | p :: rest => binRayCastAux x y ((p :: rest) ++ [p]) p false

/-- `binary_sensor.py` `_point_in_polygon(x, y)`, called with `x = lat`, `y = lon`. -/
def binary_point_in_polygon (poly : List Pt) (x y : ℚ) : Bool :=
  (cycleEdges poly).any (binEdgeNear x y) || binRayCast poly x y

open scoped Classical in
/-- Per-edge distance loop body of `sensor.py` `_distance_to_polygon_meters`
(lines 274-288): coordinates are mapped by `to_xy` into a planar frame centered at the
query point, then the clamped projection distance `math.hypot(proj_x, proj_y)` is
taken; a zero-length edge yields `math.hypot(x1, y1)`. -/
noncomputable def edgeDistance (lat lon : ℚ) (mlat mlon : ℝ) (e : Pt × Pt) : ℝ :=
  let x1 := ((e.1.2 : ℝ) - (lon : ℝ)) * mlon
  let y1 := ((e.1.1 : ℝ) - (lat : ℝ)) * mlat
  let x2 := ((e.2.2 : ℝ) - (lon : ℝ)) * mlon
  let y2 := ((e.2.1 : ℝ) - (lat : ℝ)) * mlat
  let dx := x2 - x1
  let dy := y2 - y1
  if dx = 0 ∧ dy = 0 then
    Real.sqrt (x1 * x1 + y1 * y1)
  else
    let t := max 0 (min 1 ((-(x1 * dx) - y1 * dy) / (dx * dx + dy * dy)))
    Real.sqrt ((x1 + t * dx) * (x1 + t * dx) + (y1 + t * dy) * (y1 + t * dy))

/-- `sensor.py` `_distance_to_polygon_meters(lat, lon)` (lines 259-292): one degree of
latitude is 111320 m, one degree of longitude is `111320 * cos(radians(lat))` evaluated
once at the query point; the minimum of the per-edge distances is returned (`0.0` if
the polygon has no vertices). -/
noncomputable def distance_to_polygon_meters (poly : List Pt) (lat lon : ℚ) : ℝ :=
  let mlat : ℝ := 111320
  let mlon : ℝ := mlat * Real.cos ((lat : ℝ) * (Real.pi / 180))
  match (cycleEdges poly).map (edgeDistance lat lon mlat mlon) with
  | [] => 0
  | d :: ds => ds.foldl min d

open scoped Classical in
/-- Following the spec's words (`boundary_distance_meters`, section 4.1): the clamped
perpendicular-projection distance from the origin (the query point in the planar frame)
to the segment `[a, b]`, with zero-length segments yielding the distance to the single
point. -/
noncomputable def spec_segment_distance (a b : ℝ × ℝ) : ℝ :=
  if a = b then Real.sqrt (a.1 ^ 2 + a.2 ^ 2)
  else
    let t := min 1 (max 0
      ((-(a.1 * (b.1 - a.1)) + -(a.2 * (b.2 - a.2))) / ((b.1 - a.1) ^ 2 + (b.2 - a.2) ^ 2)))
    Real.sqrt ((a.1 + t * (b.1 - a.1)) ^ 2 + (a.2 + t * (b.2 - a.2)) ^ 2)

/-- Following the spec's words: project every edge onto the local planar frame centered
at the query point (one degree latitude = 111320 m, one degree longitude =
111320 * cos(latitude in radians) evaluated once at the query point), and return the
minimum over all edges of the clamped projection distance. -/
noncomputable def spec_boundary_distance_meters (poly : List Pt) (lat lon : ℚ) : ℝ :=
  let frame : Pt → ℝ × ℝ := fun p =>
    (((p.2 : ℝ) - (lon : ℝ)) * (111320 * Real.cos ((lat : ℝ) * (Real.pi / 180))),
     ((p.1 : ℝ) - (lat : ℝ)) * 111320)
  match cycleEdges poly with
  | [] => 0
  | e :: es =>
    (es.map fun e2 => spec_segment_distance (frame e2.1) (frame e2.2)).foldr min
      (spec_segment_distance (frame e.1) (frame e.2))

/-- The query point lies exactly on the edge segment `e`, in degree coordinates. -/
def onSegment (P : Pt) (e : Pt × Pt) : Prop :=
  ∃ t : ℚ, 0 ≤ t ∧ t ≤ 1 ∧
    P.1 = e.1.1 + t * (e.2.1 - e.1.1) ∧ P.2 = e.1.2 + t * (e.2.2 - e.1.2)

/-- A Python float as seen by the tracker: an exact rational, or NaN.  `float("nan")`
parses successfully in Python, all IEEE comparisons involving NaN are false, and
arithmetic on NaN propagates NaN. -/
inductive PyF
  | nan
  | num (q : ℚ)
deriving DecidableEq

namespace PyF

/-- Python float addition. -/
def add : PyF → PyF → PyF
  | num a, num b => num (a + b)
  | _, _ => nan

/-- Python float subtraction. -/
def sub : PyF → PyF → PyF
  | num a, num b => num (a - b)
  | _, _ => nan

/-- Python float multiplication. -/
def mul : PyF → PyF → PyF
  | num a, num b => num (a * b)
  | _, _ => nan

/-- Python float division.  Division by zero is unreachable in the embedded code (it
sits behind the `p1y != p2y` guard), so the NaN default is never exercised there. -/
def div : PyF → PyF → PyF
  | num a, num b => num (a / b)
  | _, _ => nan

/-- Python `abs`. -/
def pabs : PyF → PyF
  | num a => num |a|
  | nan => nan

/-- Python `<` on floats: false whenever NaN is involved. -/
def flt : PyF → PyF → Bool
  | num a, num b => decide (a < b)
  | _, _ => false

/-- Python `<=` on floats: false whenever NaN is involved. -/
def fle : PyF → PyF → Bool
  | num a, num b => decide (a ≤ b)
  | _, _ => false

/-- Python `==` on floats: `nan == nan` is false. -/
def feq : PyF → PyF → Bool
  | num a, num b => decide (a = b)
  | _, _ => false

/-- Python `!=` on floats: `nan != nan` is true. -/
def fne : PyF → PyF → Bool
  | num a, num b => decide (a ≠ b)
  | _, _ => true

/-- Python `min(a, b)`: returns `b` if `b < a` else `a`. -/
def fmin (a b : PyF) : PyF := if flt b a then b else a

/-- Python `max(a, b)`: returns `b` if `b > a` else `a`. -/
def fmax (a b : PyF) : PyF := if flt a b then b else a

end PyF

/-- `COORD_TOLERANCE` as a float value. -/
def tolF : PyF := .num COORD_TOLERANCE

/-- Vertex check of `sensor.py` `_point_in_polygon` over Python floats (the query point
may be NaN; polygon coordinates are finite). -/
def pyVertexHit (x y : PyF) (p1 : Pt) : Bool :=
  (((PyF.num p1.2).sub x).pabs.flt tolF) && (((PyF.num p1.1).sub y).pabs.flt tolF)

/-- Bounding box plus collinearity check of `sensor.py` `_point_in_polygon` over Python
floats. -/
def pyEdgeCross (x y : PyF) (e : Pt × Pt) : Bool :=
  ((((PyF.num e.1.2).fmin (PyF.num e.2.2)).sub tolF).fle x) &&
  (x.fle (((PyF.num e.1.2).fmax (PyF.num e.2.2)).add tolF)) &&
  ((((PyF.num e.1.1).fmin (PyF.num e.2.1)).sub tolF).fle y) &&
  (y.fle (((PyF.num e.1.1).fmax (PyF.num e.2.1)).add tolF)) &&
  ((((y.sub (PyF.num e.1.1)).mul ((PyF.num e.2.2).sub (PyF.num e.1.2))).sub
      (((PyF.num e.2.1).sub (PyF.num e.1.1)).mul (x.sub (PyF.num e.1.2)))).pabs.flt tolF)

/-- One iteration of the near-boundary pass over Python floats. -/
def pyEdgeNear (x y : PyF) (e : Pt × Pt) : Bool :=
  pyVertexHit x y e.1 || pyEdgeCross x y e

/-- One iteration of the sensor ray-casting loop over Python floats. -/
def pyRayStep (x y : PyF) (p1 p2 : Pt) (inside : Bool) : Bool :=
  if (((PyF.num p1.1).fmin (PyF.num p2.1)).flt y) &&
     (y.fle ((PyF.num p1.1).fmax (PyF.num p2.1))) &&
     (x.fle ((PyF.num p1.2).fmax (PyF.num p2.2))) &&
     ((PyF.num p1.1).fne (PyF.num p2.1)) then
    if ((PyF.num p1.2).feq (PyF.num p2.2)) ||
       (x.fle ((((y.sub (PyF.num p1.1)).mul ((PyF.num p2.2).sub (PyF.num p1.2))).div
           ((PyF.num p2.1).sub (PyF.num p1.1))).add (PyF.num p1.2))) then
      !inside
    else inside
  else inside

/-- Sensor ray-casting loop over Python floats, carrying `p1`. -/
def pyRayCastAux (x y : PyF) : List Pt → Pt → Bool → Bool
  | [], _, inside => inside
  | p2 :: rest, p1, inside => pyRayCastAux x y rest p2 (pyRayStep x y p1 p2 inside)

/-- Sensor ray-casting pass over Python floats. -/
def pyRayCast (poly : List Pt) (x y : PyF) : Bool :=
  match poly with
  | [] => false
  | p :: rest => pyRayCastAux x y (p :: rest) ((p :: rest).getLastD p) false

/-- `sensor.py` `_point_in_polygon(lat, lon)` over Python floats; this is the version
invoked by `_handle_tracker_state_update` (`x = lon`, `y = lat`). -/
def pyPointInPolygon (poly : List Pt) (lat lon : PyF) : Bool :=
  (cycleEdges poly).any (pyEdgeNear lon lat) || pyRayCast poly lon lat

/-- Per-entity slot of `CustomZoneSensor._tracker_data`. -/
structure EntityData where
  lat : Option PyF
  lon : Option PyF
  accuracy : Option PyF
  in_zone : Bool
  distance : Option PyF
deriving DecidableEq

/-- The initial per-entity slot (sensor.py lines 66-74). -/
def initData : EntityData :=
  { lat := none, lon := none, accuracy := none, in_zone := false, distance := none }

/-- The mutable state of `CustomZoneSensor` relevant to tracking: the `_trackers_inside`
set (as a duplicate-free list) and the `_tracker_data` table. -/
structure TrackerState where
  trackersInside : List ℕ
  trackerData : ℕ → EntityData

/-- The state right after `__init__`. -/
def initState : TrackerState := ⟨[], fun _ => initData⟩

/-- A raw coordinate attribute: absent (`None`), a non-numeric value on which `float()`
raises `ValueError`, or a value converting to the given Python float. -/
inductive RawCoord
  | missing
  | bad
  | val (v : PyF)
deriving DecidableEq

/-- A raw `gps_accuracy` attribute: absent, unparsable, or a float value. -/
inductive RawAcc
  | amissing
  | abad
  | aval (v : PyF)
deriving DecidableEq

/-- One tracker state-change event: the tracked entity became unavailable / unknown /
absent, or reported a position with raw latitude, longitude and accuracy. -/
inductive TrackerUpd
  | gone
  | pos (lat lon : RawCoord) (acc : RawAcc)
deriving DecidableEq

/-- `sensor.py` `_parse_accuracy_meters` (lines 247-257): `None` and unparsable values
give `None`; a parsed value `<= 0` gives `None`; otherwise the value is kept.  (NaN
fails the `<= 0` test, hence is kept.) -/
def parseAccuracy : RawAcc → Option PyF
  | .amissing => none
  | .abad => none
  | .aval v => if v.fle (PyF.num 0) then none else some v

/-- The unavailable/no-coordinates branch of `_handle_tracker_state_update` (lines
128-158): discard from `_trackers_inside` and reset the entity's data slot. -/
def clearEntity (s : TrackerState) (e : ℕ) : TrackerState :=
  { trackersInside := s.trackersInside.erase e,
    trackerData := fun e2 => if e2 = e then initData else s.trackerData e2 }

/-- `sensor.py` `_handle_tracker_state_update` (lines 126-185), parameterised by the
distance oracle `distR` (modelling `round(self._distance_to_polygon_meters(lat, lon),
2)`, which takes only the parsed latitude and longitude).  The returned boolean records
whether the update fired a state refresh (`_update_state_and_attributes` +
`async_write_ha_state`); the `ValueError` branch fires none and mutates nothing. -/
def handleTrackerUpdate (poly : List Pt) (distR : PyF → PyF → PyF)
    (s : TrackerState) (e : ℕ) : TrackerUpd → TrackerState × Bool
  | .gone => (clearEntity s e, true)
  | .pos rlat rlon racc =>
    match rlat, rlon with
    | .missing, _ => (clearEntity s e, true)
    | _, .missing => (clearEntity s e, true)
    | .bad, _ => (s, false)
    | _, .bad => (s, false)
    | .val vlat, .val vlon =>
      let isInside := pyPointInPolygon poly vlat vlon
      let nd : EntityData :=
        { lat := some vlat, lon := some vlon, accuracy := parseAccuracy racc,
          in_zone := isInside, distance := some (distR vlat vlon) }
      ({ trackersInside :=
           if isInside then s.trackersInside.insert e else s.trackersInside.erase e,
         trackerData := fun e2 => if e2 = e then nd else s.trackerData e2 }, true)

/-- Run a sequence of tracker updates from the initial state. -/
def runTracker (poly : List Pt) (distR : PyF → PyF → PyF)
    (ops : List (ℕ × TrackerUpd)) : TrackerState :=
  ops.foldl (fun s op => (handleTrackerUpdate poly distR s op.1 op.2).1) initState

/-- `trackers_in_zone` of `_update_state_and_attributes` (line 189):
`sorted(list(self._trackers_inside))`. -/
def summaryInZone (s : TrackerState) : List ℕ :=
  s.trackersInside.mergeSort (fun a b => a ≤ b)

/-- `trackers_out_zone` of `_update_state_and_attributes` (line 190): the tracked ids
not in `_trackers_inside`, sorted. -/
def summaryOutZone (trackedIds : List ℕ) (s : TrackerState) : List ℕ :=
  (trackedIds.filter (fun e => !s.trackersInside.contains e)).mergeSort (fun a b => a ≤ b)

/-- `count_in_zone` of `_update_state_and_attributes` (line 195). -/
def countInZone (s : TrackerState) : ℕ := (summaryInZone s).length

/-- The invariant connecting `_trackers_inside` with the per-entity `in_zone` flags:
the set is duplicate-free, contains only tracked ids, holds exactly the entities whose
flag is set, and set flags come with a stored position. -/
def TrackerInv (trackedIds : List ℕ) (s : TrackerState) : Prop :=
  s.trackersInside.Nodup ∧
    (∀ e ∈ s.trackersInside, e ∈ trackedIds) ∧
    (∀ e, e ∈ s.trackersInside ↔ (s.trackerData e).in_zone = true) ∧
    (∀ e, (s.trackerData e).in_zone = true → (s.trackerData e).lat ≠ none)

/-- Test fixture: the square polygon of the spec's scenario section. -/
def squarePoly : List Pt := [(0, 0), (0, 10), (10, 10), (10, 0)]

/-- Test fixture: a trivial distance oracle. -/
def distZero : PyF → PyF → PyF := fun _ _ => PyF.num 0

/-! ### Generic helper lemmas -/

lemma getLastD_mem_cons {α : Type*} (l : List α) (d : α) : l.getLastD d ∈ d :: l := by
  induction l generalizing d with
  | nil => simp
  | cons a t ih =>
    rw [List.getLastD_cons]
    exact List.mem_cons_of_mem d (ih a)

lemma getLastD_congr {α : Type*} (l : List α) (hne : l ≠ []) (d d' : α) :
    l.getLastD d = l.getLastD d' := by
  cases l with
  | nil => exact absurd rfl hne
  | cons a t => rw [List.getLastD_cons, List.getLastD_cons]

lemma mem_of_mem_cycleEdges {poly : List Pt} {e : Pt × Pt} (he : e ∈ cycleEdges poly) :
    e.1 ∈ poly ∧ e.2 ∈ poly := by
  obtain ⟨a, b⟩ := e
  have h := List.of_mem_zip he
  exact ⟨h.1, List.mem_rotate.mp h.2⟩

lemma fst_mem_cycleEdges {poly : List Pt} {v : Pt} (hv : v ∈ poly) :
    ∃ e ∈ cycleEdges poly, e.1 = v := by
  have hlen : poly.length ≤ (poly.rotate 1).length := by rw [List.length_rotate]
  have hmap : (cycleEdges poly).map Prod.fst = poly := List.map_fst_zip _ _ hlen
  rw [← hmap] at hv
  rcases List.mem_map.mp hv with ⟨e, he, hfst⟩
  exact ⟨e, he, hfst⟩

lemma convex_min_le {α : Type*} [LinearOrderedField α] (a b t : α)
    (h0 : 0 ≤ t) (h1 : t ≤ 1) : min a b ≤ a + t * (b - a) := by
  rcases le_total a b with h | h
  · have : min a b = a := min_eq_left h
    nlinarith [mul_nonneg h0 (sub_nonneg.mpr h)]
  · have : min a b = b := min_eq_right h
    nlinarith [mul_nonneg (sub_nonneg.mpr h1) (sub_nonneg.mpr h)]

lemma convex_le_max {α : Type*} [LinearOrderedField α] (a b t : α)
    (h0 : 0 ≤ t) (h1 : t ≤ 1) : a + t * (b - a) ≤ max a b := by
  rcases le_total a b with h | h
  · have : max a b = b := max_eq_right h
    nlinarith [mul_nonneg (sub_nonneg.mpr h1) (sub_nonneg.mpr h)]
  · have : max a b = a := max_eq_left h
    nlinarith [mul_nonneg h0 (sub_nonneg.mpr h)]

lemma ray_t_mem {α : Type*} [LinearOrderedField α] {a1 a2 y : α}
    (h : a1 < y ∧ y ≤ a2 ∨ a2 < y ∧ y ≤ a1) :
    0 ≤ (y - a1) / (a2 - a1) ∧ (y - a1) / (a2 - a1) ≤ 1 := by
  rcases h with ⟨hlt, hle⟩ | ⟨hlt, hle⟩
  · have hden : 0 < a2 - a1 := by linarith
    constructor
    · exact div_nonneg (by linarith) hden.le
    · rw [div_le_one hden]; linarith
  · have hden : a2 - a1 < 0 := by linarith
    constructor
    · exact div_nonneg_of_nonpos (by linarith) hden.le
    · have h2 : (y - a1) / (a2 - a1) - 1 = (y - a2) / (a2 - a1) := by
        rw [div_sub_one hden.ne]
        ring_nf
      have h3 : (y - a2) / (a2 - a1) ≤ 0 :=
        div_nonpos_of_nonneg_of_nonpos (by linarith) hden.le
      linarith [h2 ▸ h3]

/-! ### Ray-cast structure lemmas -/

lemma rayCastAux_id (x y : ℚ) (S : Pt → Prop)
    (hstep : ∀ p1 p2 b, S p1 → S p2 → rayStep x y p1 p2 b = b) :
    ∀ (l : List Pt) (p1 : Pt) (b : Bool), S p1 → (∀ q ∈ l, S q) →
      rayCastAux x y l p1 b = b := by
  intro l
  induction l with
  | nil => intro p1 b _ _; rfl
  | cons p2 rest ih =>
    intro p1 b hp1 hl
    have hp2 : S p2 := hl p2 (by simp)
    rw [rayCastAux, hstep p1 p2 b hp1 hp2]
    exact ih p2 b hp2 (fun q hq => hl q (List.mem_cons_of_mem _ hq))

lemma rayCastAux_xor (x y : ℚ) (f : Pt → Bool) (S : Pt → Prop)
    (hstep : ∀ p1 p2 b, S p1 → S p2 → rayStep x y p1 p2 b = xor b (xor (f p1) (f p2))) :
    ∀ (l : List Pt) (p1 : Pt) (b : Bool), S p1 → (∀ q ∈ l, S q) →
      rayCastAux x y l p1 b = xor b (xor (f p1) (f (l.getLastD p1))) := by
  intro l
  induction l with
  | nil => intro p1 b _ _; simp [rayCastAux]
  | cons p2 rest ih =>
    intro p1 b hp1 hl
    have hp2 : S p2 := hl p2 (by simp)
    rw [rayCastAux, hstep p1 p2 b hp1 hp2,
      ih p2 _ hp2 (fun q hq => hl q (List.mem_cons_of_mem _ hq)), List.getLastD_cons]
    cases b <;> cases f p1 <;> cases f p2 <;> cases f (rest.getLastD p2) <;> rfl

lemma rayCast_start_mem (p : Pt) (rest : List Pt) : (p :: rest).getLastD p ∈ p :: rest := by
  have h := getLastD_mem_cons (p :: rest) p
  rcases List.mem_cons.mp h with h | h
  · rw [h]; exact List.mem_cons_self _ _
  · exact h

lemma abs_ge_of_lt_sub {a x tol : ℚ} (h : x < a - tol) : tol ≤ |a - x| := by
  have h2 : tol ≤ a - x := by linarith
  exact le_trans h2 (le_abs_self _)

lemma abs_ge_of_gt_add {a x tol : ℚ} (h : a + tol < x) : tol ≤ |a - x| := by
  have h2 : tol ≤ x - a := by linarith
  rw [abs_sub_comm]
  exact le_trans h2 (le_abs_self _)

lemma edgeCross_false_of_xlow {x y tol : ℚ} {e : Pt × Pt}
    (h : ¬ (x ≥ min e.1.2 e.2.2 - tol)) : edgeCross x y tol e = false := by
  simp [edgeCross, h]

lemma edgeCross_false_of_xhigh {x y tol : ℚ} {e : Pt × Pt}
    (h : ¬ (x ≤ max e.1.2 e.2.2 + tol)) : edgeCross x y tol e = false := by
  simp [edgeCross, h]

lemma edgeCross_false_of_ylow {x y tol : ℚ} {e : Pt × Pt}
    (h : ¬ (y ≥ min e.1.1 e.2.1 - tol)) : edgeCross x y tol e = false := by
  simp [edgeCross, h]

lemma edgeCross_false_of_yhigh {x y tol : ℚ} {e : Pt × Pt}
    (h : ¬ (y ≤ max e.1.1 e.2.1 + tol)) : edgeCross x y tol e = false := by
  simp [edgeCross, h]

/-- In exact arithmetic, for a query point strictly left of both edge longitudes, the
ray-cast step toggles exactly when the edge's latitudes straddle the query latitude
(half-open rule); this makes the whole pass a telescoping parity. -/
lemma rayStep_left {x y tol : ℚ} (htol : 0 ≤ tol) {p1 p2 : Pt}
    (h1 : x < p1.2 - tol) (h2 : x < p2.2 - tol) (b : Bool) :
    rayStep x y p1 p2 b = xor b (xor (decide (p1.1 < y)) (decide (p2.1 < y))) := by
  have hx1 : x < p1.2 := by linarith
  have hx2 : x < p2.2 := by linarith
  by_cases hy1 : p1.1 < y <;> by_cases hy2 : p2.1 < y
  · -- both latitudes below y: `y <= max` fails, no toggle
    unfold rayStep
    rw [if_neg]
    · simp [hy1, hy2]
    rintro ⟨-, hle, -, -⟩
    rcases max_cases p1.1 p2.1 with ⟨hm, -⟩ | ⟨hm, -⟩ <;> rw [hm] at hle <;> linarith
  · -- straddling: p1 below, p2 at or above: toggle
    have hy2' : y ≤ p2.1 := not_lt.mp hy2
    have hden : p1.1 ≠ p2.1 := by intro h; rw [h] at hy1; linarith
    have ht := @ray_t_mem ℚ _ p1.1 p2.1 y (Or.inl ⟨hy1, hy2'⟩)
    unfold rayStep
    rw [if_pos, if_pos]
    · simp [hy1, hy2]
    · by_cases hvert : p1.2 = p2.2
      · exact Or.inl hvert
      · refine Or.inr ?_
        have hrw : (y - p1.1) * (p2.2 - p1.2) / (p2.1 - p1.1) =
            (y - p1.1) / (p2.1 - p1.1) * (p2.2 - p1.2) := mul_div_right_comm _ _ _
        rw [hrw]
        have hmin := convex_min_le p1.2 p2.2 ((y - p1.1) / (p2.1 - p1.1)) ht.1 ht.2
        have hxmin : x < min p1.2 p2.2 := lt_min hx1 hx2
        linarith
    · refine ⟨lt_of_le_of_lt (min_le_left _ _) hy1, le_trans hy2' (le_max_right _ _),
        le_trans hx1.le (le_max_left _ _), hden⟩
  · -- straddling the other way: p2 below, p1 at or above: toggle
    have hy1' : y ≤ p1.1 := not_lt.mp hy1
    have hden : p1.1 ≠ p2.1 := by intro h; rw [h] at hy1'; linarith
    have ht := @ray_t_mem ℚ _ p1.1 p2.1 y (Or.inr ⟨hy2, hy1'⟩)
    unfold rayStep
    rw [if_pos, if_pos]
    · simp [hy1, hy2]
    · by_cases hvert : p1.2 = p2.2
      · exact Or.inl hvert
      · refine Or.inr ?_
        have hrw : (y - p1.1) * (p2.2 - p1.2) / (p2.1 - p1.1) =
            (y - p1.1) / (p2.1 - p1.1) * (p2.2 - p1.2) := mul_div_right_comm _ _ _
        rw [hrw]
        have hmin := convex_min_le p1.2 p2.2 ((y - p1.1) / (p2.1 - p1.1)) ht.1 ht.2
        have hxmin : x < min p1.2 p2.2 := lt_min hx1 hx2
        linarith
    · refine ⟨lt_of_le_of_lt (min_le_right _ _) hy2, le_trans hy1' (le_max_left _ _),
        le_trans hx1.le (le_max_left _ _), hden⟩
  · -- both latitudes at or above y: `y > min` fails, no toggle
    unfold rayStep
    rw [if_neg]
    · simp [hy1, hy2]
    rintro ⟨hgt, -, -, -⟩
    rcases min_cases p1.1 p2.1 with ⟨hm, -⟩ | ⟨hm, -⟩ <;> rw [hm] at hgt <;>
      [exact hy1 hgt; exact hy2 hgt]

/-! ### Claim theorems -/

/-- Claim C1: if any edge of the polygon triggers the near-boundary pass (vertex
coincidence or bounding box plus small cross product), `classify_point` returns
OnBoundary, the sensor's membership test returns true, and the ray-cast parity result
is never consulted (any parity bit yields OnBoundary). -/
theorem boundary_pass_wins (poly : List Pt) (lat lon : ℚ) (h3 : 3 ≤ poly.length)
    (htrig : ∃ e ∈ cycleEdges poly, edgeNear lon lat COORD_TOLERANCE e = true) :
    classify_point poly lat lon COORD_TOLERANCE = .OnBoundary ∧
      sensor_point_in_polygon poly lat lon = true ∧
      ∀ parity : Bool,
        classify_of_parity poly lat lon COORD_TOLERANCE parity = .OnBoundary := by
  have hhit : boundaryHit poly lon lat COORD_TOLERANCE = true := List.any_eq_true.mpr htrig
  refine ⟨?_, ?_, fun parity => ?_⟩ <;>
    simp [classify_point, classify_of_parity, sensor_point_in_polygon, hhit]

/-- Claim C10: every vertex of the polygon, used as the query point, classifies as
OnBoundary (the vertex-coincidence check fires for any positive tolerance). -/
theorem vertex_classifies_on_boundary (poly : List Pt) (tol : ℚ) (v : Pt)
    (h3 : 3 ≤ poly.length) (htol : 0 < tol) (hv : v ∈ poly) :
    classify_point poly v.1 v.2 tol = .OnBoundary := by
  rcases fst_mem_cycleEdges hv with ⟨e, he, hfst⟩
  have hhit : boundaryHit poly v.2 v.1 tol = true := by
    refine List.any_eq_true.mpr ⟨e, he, ?_⟩
    simp [edgeNear, vertexHit, hfst, htol]
  simp [classify_point, hhit]

/-- Claim C2 (amended): a query point lying outside the polygon's axis-aligned
bounding box by more than the tolerance on some axis is classified Outside, and the
sensor's membership test returns false.  (Strictly outside the un-expanded bounding box
is not enough: within tolerance of it the near-boundary pass can still fire.) -/
theorem outside_expanded_bbox_is_outside (poly : List Pt) (lat lon : ℚ)
    (h3 : 3 ≤ poly.length)
    (hout : (∀ p ∈ poly, p.2 + COORD_TOLERANCE < lon) ∨
            (∀ p ∈ poly, lon < p.2 - COORD_TOLERANCE) ∨
            (∀ p ∈ poly, p.1 + COORD_TOLERANCE < lat) ∨
            (∀ p ∈ poly, lat < p.1 - COORD_TOLERANCE)) :
    classify_point poly lat lon COORD_TOLERANCE = .Outside ∧
      sensor_point_in_polygon poly lat lon = false := by
  have htol : (0 : ℚ) ≤ COORD_TOLERANCE := by norm_num [COORD_TOLERANCE]
  -- the near-boundary pass cannot fire
  have hnb : boundaryHit poly lon lat COORD_TOLERANCE = false := by
    rw [boundaryHit, List.any_eq_false]
    intro e he
    obtain ⟨he1, he2⟩ := mem_of_mem_cycleEdges he
    rw [Bool.not_eq_true, edgeNear, Bool.or_eq_false_iff]
    rcases hout with h | h | h | h
    · refine ⟨?_, edgeCross_false_of_xhigh (not_le.mpr ?_)⟩
      · rw [vertexHit, Bool.and_eq_false_iff]
        exact Or.inl (by simp [not_lt.mpr (abs_ge_of_gt_add (h e.1 he1))])
      · rcases max_cases e.1.2 e.2.2 with ⟨hm, -⟩ | ⟨hm, -⟩ <;> rw [hm] <;>
          [linarith [h e.1 he1]; linarith [h e.2 he2]]
    · refine ⟨?_, edgeCross_false_of_xlow (not_le.mpr ?_)⟩
      · rw [vertexHit, Bool.and_eq_false_iff]
        exact Or.inl (by simp [not_lt.mpr (abs_ge_of_lt_sub (h e.1 he1))])
      · rcases min_cases e.1.2 e.2.2 with ⟨hm, -⟩ | ⟨hm, -⟩ <;> rw [hm] <;>
          [linarith [h e.1 he1]; linarith [h e.2 he2]]
    · refine ⟨?_, edgeCross_false_of_yhigh (not_le.mpr ?_)⟩
      · rw [vertexHit, Bool.and_eq_false_iff]
        exact Or.inr (by simp [not_lt.mpr (abs_ge_of_gt_add (h e.1 he1))])
      · rcases max_cases e.1.1 e.2.1 with ⟨hm, -⟩ | ⟨hm, -⟩ <;> rw [hm] <;>
          [linarith [h e.1 he1]; linarith [h e.2 he2]]
    · refine ⟨?_, edgeCross_false_of_ylow (not_le.mpr ?_)⟩
      · rw [vertexHit, Bool.and_eq_false_iff]
        exact Or.inr (by simp [not_lt.mpr (abs_ge_of_lt_sub (h e.1 he1))])
      · rcases min_cases e.1.1 e.2.1 with ⟨hm, -⟩ | ⟨hm, -⟩ <;> rw [hm] <;>
          [linarith [h e.1 he1]; linarith [h e.2 he2]]
  -- the ray-cast pass reports outside
  have hrc : rayCast poly lon lat = false := by
    cases poly with
    | nil => simp at h3
    | cons p rest =>
      have hstart := rayCast_start_mem p rest
      rw [rayCast]
      rcases hout with h | h | h | h
      · -- query longitude right of everything: `x <= max` always fails
        refine rayCastAux_id lon lat (fun q => q.2 + COORD_TOLERANCE < lon)
          (fun p1 p2 b s1 s2 => ?_) _ _ _ (h _ hstart) (fun q hq => h q hq)
        unfold rayStep
        rw [if_neg]
        rintro ⟨-, -, hxle, -⟩
        rcases max_cases p1.2 p2.2 with ⟨hm, -⟩ | ⟨hm, -⟩ <;> rw [hm] at hxle <;> linarith
      · -- query longitude left of everything: telescoping parity is even
        have hres := rayCastAux_xor lon lat (fun q => decide (q.1 < lat))
          (fun q => lon < q.2 - COORD_TOLERANCE)
          (fun p1 p2 b s1 s2 => rayStep_left htol s1 s2 b)
          (p :: rest) ((p :: rest).getLastD p) false (h _ hstart) (fun q hq => h q hq)
        rw [hres]
        have heq : (p :: rest).getLastD ((p :: rest).getLastD p) = (p :: rest).getLastD p :=
          getLastD_congr _ (by simp) _ _
        rw [heq]
        simp
      · -- query latitude above everything: `y <= max` always fails
        refine rayCastAux_id lon lat (fun q => q.1 + COORD_TOLERANCE < lat)
          (fun p1 p2 b s1 s2 => ?_) _ _ _ (h _ hstart) (fun q hq => h q hq)
        unfold rayStep
        rw [if_neg]
        rintro ⟨-, hyle, -, -⟩
        rcases max_cases p1.1 p2.1 with ⟨hm, -⟩ | ⟨hm, -⟩ <;> rw [hm] at hyle <;> linarith
      · -- query latitude below everything: `y > min` always fails
        refine rayCastAux_id lon lat (fun q => lat < q.1 - COORD_TOLERANCE)
          (fun p1 p2 b s1 s2 => ?_) _ _ _ (h _ hstart) (fun q hq => h q hq)
        unfold rayStep
        rw [if_neg]
        rintro ⟨hygt, -, -, -⟩
        rcases min_cases p1.1 p2.1 with ⟨hm, -⟩ | ⟨hm, -⟩ <;> rw [hm] at hygt <;> linarith
  simp [classify_point, sensor_point_in_polygon, hnb, hrc]

/-- Claim C9 (amended): the two independent implementations are not extensionally
equal, but the binary sensor's near-boundary acceptance is subsumed by the sensor's:
whenever the binary sensor's near-boundary pass (tolerance 1e-6) triggers for a point,
both implementations report membership - the sensor's wider 1e-5 pass triggers on the
same edge, the collinearity cross products being negatives of one another. -/
theorem binary_boundary_implies_both (poly : List Pt) (lat lon : ℚ)
    (h3 : 3 ≤ poly.length)
    (htrig : ∃ e ∈ cycleEdges poly, binEdgeNear lat lon e = true) :
    binary_point_in_polygon poly lat lon = true ∧
      sensor_point_in_polygon poly lat lon = true := by
  constructor
  · simp [binary_point_in_polygon, List.any_eq_true.mpr htrig]
  · rcases htrig with ⟨e, he, hne⟩
    have hs : edgeNear lon lat COORD_TOLERANCE e = true := by
      have htolrel : (1 : ℚ) / 1000000 < COORD_TOLERANCE := by norm_num [COORD_TOLERANCE]
      rw [binEdgeNear, Bool.or_eq_true] at hne
      rw [edgeNear, Bool.or_eq_true]
      rcases hne with hv | hc
      · left
        simp only [binVertexHit, Bool.and_eq_true, decide_eq_true_eq] at hv
        simp only [vertexHit, Bool.and_eq_true, decide_eq_true_eq]
        exact ⟨by linarith [hv.2], by linarith [hv.1]⟩
      · right
        simp only [binEdgeCross, Bool.and_eq_true, decide_eq_true_eq] at hc
        obtain ⟨⟨⟨⟨hb1, hb2⟩, hb3⟩, hb4⟩, hb5⟩ := hc
        simp only [edgeCross, Bool.and_eq_true, decide_eq_true_eq]
        have hneg : (lat - e.1.1) * (e.2.2 - e.1.2) - (e.2.1 - e.1.1) * (lon - e.1.2) =
            -((lon - e.1.2) * (e.2.1 - e.1.1) - (e.2.2 - e.1.2) * (lat - e.1.1)) := by
          ring
        refine ⟨⟨⟨⟨?_, ?_⟩, ?_⟩, ?_⟩, ?_⟩
        · linarith
        · linarith
        · linarith
        · linarith
        · rw [hneg, abs_neg]; linarith
    have hhit : boundaryHit poly lon lat COORD_TOLERANCE = true :=
      List.any_eq_true.mpr ⟨e, he, hs⟩
    simp [sensor_point_in_polygon, hhit]

/-! ### Distance refinement (C3) -/

lemma clamp_comm (t : ℝ) : max 0 (min 1 t) = min 1 (max 0 t) := by
  simp only [min_def, max_def]
  split_ifs <;> linarith

lemma foldr_min_min {α : Type*} [LinearOrder α] (a b : α) (l : List α) :
    l.foldr min (min a b) = min b (l.foldr min a) := by
  induction l with
  | nil => exact min_comm a b
  | cons c t ih => rw [List.foldr_cons, List.foldr_cons, ih, min_left_comm]

lemma foldl_min_eq_foldr {α : Type*} [LinearOrder α] (a : α) (l : List α) :
    l.foldl min a = l.foldr min a := by
  induction l generalizing a with
  | nil => rfl
  | cons b t ih => rw [List.foldl_cons, List.foldr_cons, ih, foldr_min_min]

lemma spec_segment_eq_edgeDistance (lat lon : ℚ) (mlat mlon : ℝ) (e : Pt × Pt) :
    spec_segment_distance
      (((e.1.2 : ℝ) - (lon : ℝ)) * mlon, ((e.1.1 : ℝ) - (lat : ℝ)) * mlat)
      (((e.2.2 : ℝ) - (lon : ℝ)) * mlon, ((e.2.1 : ℝ) - (lat : ℝ)) * mlat) =
      edgeDistance lat lon mlat mlon e := by
  unfold spec_segment_distance edgeDistance
  dsimp only
  generalize ((e.1.2 : ℝ) - (lon : ℝ)) * mlon = x1
  generalize ((e.1.1 : ℝ) - (lat : ℝ)) * mlat = y1
  generalize ((e.2.2 : ℝ) - (lon : ℝ)) * mlon = x2
  generalize ((e.2.1 : ℝ) - (lat : ℝ)) * mlat = y2
  have hcond : ((x1, y1) : ℝ × ℝ) = (x2, y2) ↔ (x2 - x1 = 0 ∧ y2 - y1 = 0) := by
    rw [Prod.mk.injEq]
    constructor
    · rintro ⟨h1, h2⟩; exact ⟨by rw [h1]; ring, by rw [h2]; ring⟩
    · rintro ⟨h1, h2⟩; constructor <;> linarith
  by_cases h : x2 - x1 = 0 ∧ y2 - y1 = 0
  · rw [if_pos (hcond.mpr h), if_pos h]
    congr 1
    ring
  · rw [if_neg (fun hh => h (hcond.mp hh)), if_neg h]
    have hq : (-(x1 * (x2 - x1)) + -(y1 * (y2 - y1))) / ((x2 - x1) ^ 2 + (y2 - y1) ^ 2) =
        (-(x1 * (x2 - x1)) - y1 * (y2 - y1)) /
          ((x2 - x1) * (x2 - x1) + (y2 - y1) * (y2 - y1)) := by
      ring_nf
    rw [hq, ← clamp_comm]
    congr 1
    ring

/-- Claim C3: the code's `_distance_to_polygon_meters` coincides with the distance the
spec describes: the minimum over all edges of the clamped perpendicular-projection
distance in the local planar frame (111320 m per degree latitude, 111320 times the
cosine of the query latitude in radians per degree longitude, evaluated once at the
query point), zero-length edges contributing the distance to their single endpoint. -/
theorem boundary_distance_refines (poly : List Pt) (lat lon : ℚ)
    (h3 : 3 ≤ poly.length) :
    spec_boundary_distance_meters poly lat lon = distance_to_polygon_meters poly lat lon := by
  unfold spec_boundary_distance_meters distance_to_polygon_meters
  dsimp only
  cases hE : cycleEdges poly with
  | nil => rfl
  | cons e es =>
    rw [List.map_cons]
    dsimp only
    have hmap : es.map (fun e2 => spec_segment_distance
        (((e2.1.2 : ℝ) - (lon : ℝ)) * (111320 * Real.cos ((lat : ℝ) * (Real.pi / 180))),
         ((e2.1.1 : ℝ) - (lat : ℝ)) * 111320)
        (((e2.2.2 : ℝ) - (lon : ℝ)) * (111320 * Real.cos ((lat : ℝ) * (Real.pi / 180))),
         ((e2.2.1 : ℝ) - (lat : ℝ)) * 111320)) =
        es.map (edgeDistance lat lon 111320
          (111320 * Real.cos ((lat : ℝ) * (Real.pi / 180)))) := by
      refine List.map_congr_left (fun e2 _ => ?_)
      exact spec_segment_eq_edgeDistance lat lon _ _ e2
    rw [hmap, spec_segment_eq_edgeDistance lat lon _ _ e, foldl_min_eq_foldr]

/-! ### Distance / classification interplay (C4) -/

lemma le_foldl_min {α : Type*} [LinearOrder α] {c : α} :
    ∀ {d : α} {l : List α}, c ≤ d → (∀ a ∈ l, c ≤ a) → c ≤ l.foldl min d := by
  intro d l
  induction l generalizing d with
  | nil => intro hd _; exact hd
  | cons b t ih =>
    intro hd hl
    rw [List.foldl_cons]
    exact ih (le_min hd (hl b (by simp))) (fun a ha => hl a (List.mem_cons_of_mem _ ha))

lemma lt_foldl_min {α : Type*} [LinearOrder α] {c : α} :
    ∀ {d : α} {l : List α}, c < d → (∀ a ∈ l, c < a) → c < l.foldl min d := by
  intro d l
  induction l generalizing d with
  | nil => intro hd _; exact hd
  | cons b t ih =>
    intro hd hl
    rw [List.foldl_cons]
    exact ih (lt_min hd (hl b (by simp))) (fun a ha => hl a (List.mem_cons_of_mem _ ha))

lemma foldl_min_le_init {α : Type*} [LinearOrder α] :
    ∀ {d : α} {l : List α}, l.foldl min d ≤ d := by
  intro d l
  induction l generalizing d with
  | nil => exact le_refl _
  | cons b t ih =>
    rw [List.foldl_cons]
    exact le_trans ih (min_le_left _ _)

lemma foldl_min_le_mem {α : Type*} [LinearOrder α] {a : α} :
    ∀ {d : α} {l : List α}, a ∈ l → l.foldl min d ≤ a := by
  intro d l
  induction l generalizing d with
  | nil => intro h; simp at h
  | cons b t ih =>
    intro h
    rw [List.foldl_cons]
    rcases List.mem_cons.mp h with rfl | h
    · exact le_trans foldl_min_le_init (min_le_right _ _)
    · exact ih h

lemma edgeDistance_nonneg (lat lon : ℚ) (mlat mlon : ℝ) (e : Pt × Pt) :
    0 ≤ edgeDistance lat lon mlat mlon e := by
  unfold edgeDistance
  dsimp only
  split_ifs <;> exact Real.sqrt_nonneg _

/-- A point exactly on an edge segment triggers that edge's bounding-box plus
collinearity test for any positive tolerance. -/
lemma boundaryHit_of_onSegment {poly : List Pt} {lat lon tol : ℚ} {e : Pt × Pt}
    (htol : 0 < tol) (he : e ∈ cycleEdges poly) (hseg : onSegment (lat, lon) e) :
    boundaryHit poly lon lat tol = true := by
  obtain ⟨t, ht0, ht1, hlat, hlon⟩ := hseg
  dsimp only at hlat hlon
  refine List.any_eq_true.mpr ⟨e, he, ?_⟩
  rw [edgeNear, Bool.or_eq_true]
  right
  simp only [edgeCross, Bool.and_eq_true, decide_eq_true_eq]
  have hlon2 : min e.1.2 e.2.2 ≤ lon ∧ lon ≤ max e.1.2 e.2.2 := by
    rw [hlon]
    exact ⟨convex_min_le _ _ _ ht0 ht1, convex_le_max _ _ _ ht0 ht1⟩
  have hlat2 : min e.1.1 e.2.1 ≤ lat ∧ lat ≤ max e.1.1 e.2.1 := by
    rw [hlat]
    exact ⟨convex_min_le _ _ _ ht0 ht1, convex_le_max _ _ _ ht0 ht1⟩
  have hcross : (lat - e.1.1) * (e.2.2 - e.1.2) - (e.2.1 - e.1.1) * (lon - e.1.2) = 0 := by
    have h1 : lat - e.1.1 = t * (e.2.1 - e.1.1) := by rw [hlat]; ring
    have h2 : lon - e.1.2 = t * (e.2.2 - e.1.2) := by rw [hlon]; ring
    rw [h1, h2]; ring
  refine ⟨⟨⟨⟨by linarith [hlon2.1], by linarith [hlon2.2]⟩, by linarith [hlat2.1]⟩,
    by linarith [hlat2.2]⟩, by rw [hcross, abs_zero]; exact htol⟩

/-- A point exactly on an edge segment has per-edge planar distance exactly 0 (for any
scale factors). -/
lemma edgeDistance_eq_zero_of_onSegment (lat lon : ℚ) (mlat mlon : ℝ) (e : Pt × Pt)
    (hseg : onSegment (lat, lon) e) :
    edgeDistance lat lon mlat mlon e = 0 := by
  obtain ⟨t, ht0, ht1, hlat, hlon⟩ := hseg
  dsimp only at hlat hlon
  have hlatR : ((lat : ℝ)) = (e.1.1 : ℝ) + (t : ℝ) * ((e.2.1 : ℝ) - (e.1.1 : ℝ)) := by
    exact_mod_cast hlat
  have hlonR : ((lon : ℝ)) = (e.1.2 : ℝ) + (t : ℝ) * ((e.2.2 : ℝ) - (e.1.2 : ℝ)) := by
    exact_mod_cast hlon
  unfold edgeDistance
  dsimp only
  generalize hgx1 : ((e.1.2 : ℝ) - (lon : ℝ)) * mlon = x1
  generalize hgy1 : ((e.1.1 : ℝ) - (lat : ℝ)) * mlat = y1
  generalize hgx2 : ((e.2.2 : ℝ) - (lon : ℝ)) * mlon = x2
  generalize hgy2 : ((e.2.1 : ℝ) - (lat : ℝ)) * mlat = y2
  have hx0 : x1 + (t : ℝ) * (x2 - x1) = 0 := by
    rw [← hgx1, ← hgx2, hlonR]; ring
  have hy0 : y1 + (t : ℝ) * (y2 - y1) = 0 := by
    rw [← hgy1, ← hgy2, hlatR]; ring
  by_cases h : x2 - x1 = 0 ∧ y2 - y1 = 0
  · rw [if_pos h]
    rw [h.1, mul_zero, add_zero] at hx0
    rw [h.2, mul_zero, add_zero] at hy0
    rw [hx0, hy0]
    norm_num
  · rw [if_neg h]
    have hden : 0 < (x2 - x1) * (x2 - x1) + (y2 - y1) * (y2 - y1) := by
      rcases not_and_or.mp h with hx | hy
      · nlinarith [mul_self_pos.mpr hx, mul_self_nonneg (y2 - y1)]
      · nlinarith [mul_self_pos.mpr hy, mul_self_nonneg (x2 - x1)]
    have hq : (-(x1 * (x2 - x1)) - y1 * (y2 - y1)) /
        ((x2 - x1) * (x2 - x1) + (y2 - y1) * (y2 - y1)) = (t : ℝ) := by
      rw [div_eq_iff hden.ne']
      linear_combination (-(x2 - x1)) * hx0 + (-(y2 - y1)) * hy0
    have ht0R : (0 : ℝ) ≤ (t : ℝ) := by exact_mod_cast ht0
    have ht1R : (t : ℝ) ≤ 1 := by exact_mod_cast ht1
    rw [hq, min_eq_right ht1R, max_eq_right ht0R, hx0, hy0]
    norm_num

/-- For nonzero scale factors, the per-edge planar distance is strictly positive at any
query point not exactly on the edge segment. -/
lemma edgeDistance_pos (lat lon : ℚ) {mlat mlon : ℝ} (hmlat : mlat ≠ 0) (hmlon : mlon ≠ 0)
    (e : Pt × Pt) (hnot : ¬ onSegment (lat, lon) e) :
    0 < edgeDistance lat lon mlat mlon e := by
  unfold edgeDistance
  dsimp only
  generalize hgx1 : ((e.1.2 : ℝ) - (lon : ℝ)) * mlon = x1
  generalize hgy1 : ((e.1.1 : ℝ) - (lat : ℝ)) * mlat = y1
  generalize hgx2 : ((e.2.2 : ℝ) - (lon : ℝ)) * mlon = x2
  generalize hgy2 : ((e.2.1 : ℝ) - (lat : ℝ)) * mlat = y2
  by_cases h : x2 - x1 = 0 ∧ y2 - y1 = 0
  · rw [if_pos h]
    apply Real.sqrt_pos.mpr
    have hne : ¬ (x1 = 0 ∧ y1 = 0) := by
      rintro ⟨hx, hy⟩
      apply hnot
      rw [← hgx1] at hx
      rw [← hgy1] at hy
      have h2 : (e.1.2 : ℚ) = lon := by
        have h2R : (e.1.2 : ℝ) - (lon : ℝ) = 0 := (mul_eq_zero.mp hx).resolve_right hmlon
        have : ((e.1.2 : ℝ)) = (lon : ℝ) := by linarith
        exact_mod_cast this
      have h1 : (e.1.1 : ℚ) = lat := by
        have h1R : (e.1.1 : ℝ) - (lat : ℝ) = 0 := (mul_eq_zero.mp hy).resolve_right hmlat
        have : ((e.1.1 : ℝ)) = (lat : ℝ) := by linarith
        exact_mod_cast this
      exact ⟨0, le_refl 0, zero_le_one, by dsimp; rw [h1]; ring, by dsimp; rw [h2]; ring⟩
    rcases not_and_or.mp hne with hx | hy
    · nlinarith [mul_self_pos.mpr hx, mul_self_nonneg y1]
    · nlinarith [mul_self_pos.mpr hy, mul_self_nonneg x1]
  · rw [if_neg h]
    apply Real.sqrt_pos.mpr
    set q := (-(x1 * (x2 - x1)) - y1 * (y2 - y1)) /
      ((x2 - x1) * (x2 - x1) + (y2 - y1) * (y2 - y1)) with hqdef
    set tc := max 0 (min 1 q) with htcdef
    have htc0 : (0 : ℝ) ≤ tc := le_max_left _ _
    have htc1 : tc ≤ 1 := max_le zero_le_one (min_le_left _ _)
    have hne : ¬ (x1 + tc * (x2 - x1) = 0 ∧ y1 + tc * (y2 - y1) = 0) := by
      rintro ⟨hu, hv⟩
      apply hnot
      rw [← hgx1, ← hgx2] at hu
      rw [← hgy1, ← hgy2] at hv
      have hU : ((e.1.2 : ℝ) - lon + tc * ((e.2.2 : ℝ) - (e.1.2 : ℝ))) * mlon = 0 := by
        linear_combination hu
      have hV : ((e.1.1 : ℝ) - lat + tc * ((e.2.1 : ℝ) - (e.1.1 : ℝ))) * mlat = 0 := by
        linear_combination hv
      have hU2 : (e.1.2 : ℝ) - lon + tc * ((e.2.2 : ℝ) - (e.1.2 : ℝ)) = 0 :=
        (mul_eq_zero.mp hU).resolve_right hmlon
      have hV2 : (e.1.1 : ℝ) - lat + tc * ((e.2.1 : ℝ) - (e.1.1 : ℝ)) = 0 :=
        (mul_eq_zero.mp hV).resolve_right hmlat
      by_cases hB2 : (e.2.2 : ℚ) - e.1.2 = 0
      · have hB2R : (e.2.2 : ℝ) - (e.1.2 : ℝ) = 0 := by
          have : (((e.2.2 - e.1.2 : ℚ)) : ℝ) = 0 := by rw [hB2]; norm_num
          push_cast at this
          linarith
        have hlon0 : (e.1.2 : ℚ) = lon := by
          rw [hB2R, mul_zero, add_zero] at hU2
          have : ((e.1.2 : ℝ)) = (lon : ℝ) := by linarith
          exact_mod_cast this
        by_cases hB1 : (e.2.1 : ℚ) - e.1.1 = 0
        · have hB1R : (e.2.1 : ℝ) - (e.1.1 : ℝ) = 0 := by
            have : (((e.2.1 - e.1.1 : ℚ)) : ℝ) = 0 := by rw [hB1]; norm_num
            push_cast at this
            linarith
          have hlat0 : (e.1.1 : ℚ) = lat := by
            rw [hB1R, mul_zero, add_zero] at hV2
            have : ((e.1.1 : ℝ)) = (lat : ℝ) := by linarith
            exact_mod_cast this
          exact ⟨0, le_refl 0, zero_le_one, by dsimp; rw [hlat0]; ring,
            by dsimp; rw [hlon0]; ring⟩
        · have hB1R : (e.2.1 : ℝ) - (e.1.1 : ℝ) ≠ 0 := by
            intro hzz
            apply hB1
            have : (((e.2.1 - e.1.1 : ℚ)) : ℝ) = 0 := by push_cast; linarith
            exact_mod_cast this
          have htq : tc = (((lat - e.1.1) / (e.2.1 - e.1.1) : ℚ) : ℝ) := by
            have hsolve : tc = ((lat : ℝ) - (e.1.1 : ℝ)) / ((e.2.1 : ℝ) - (e.1.1 : ℝ)) := by
              rw [eq_div_iff hB1R]
              linarith [hV2]
            rw [hsolve]
            push_cast
            ring
          refine ⟨(lat - e.1.1) / (e.2.1 - e.1.1), ?_, ?_, ?_, ?_⟩
          · have := htc0
            rw [htq] at this
            exact_mod_cast this
          · have := htc1
            rw [htq] at this
            exact_mod_cast this
          · dsimp
            field_simp
          · dsimp
            rw [hB2, mul_zero, add_zero, hlon0]
      · have hB2R : (e.2.2 : ℝ) - (e.1.2 : ℝ) ≠ 0 := by
          intro hzz
          apply hB2
          have : (((e.2.2 - e.1.2 : ℚ)) : ℝ) = 0 := by push_cast; linarith
          exact_mod_cast this
        have htq : tc = (((lon - e.1.2) / (e.2.2 - e.1.2) : ℚ) : ℝ) := by
          have hsolve : tc = ((lon : ℝ) - (e.1.2 : ℝ)) / ((e.2.2 : ℝ) - (e.1.2 : ℝ)) := by
            rw [eq_div_iff hB2R]
            linarith [hU2]
          rw [hsolve]
          push_cast
          ring
        refine ⟨(lon - e.1.2) / (e.2.2 - e.1.2), ?_, ?_, ?_, ?_⟩
        · have := htc0
          rw [htq] at this
          exact_mod_cast this
        · have := htc1
          rw [htq] at this
          exact_mod_cast this
        · dsimp
          have hlatR : (lat : ℝ) =
              (e.1.1 : ℝ) + (((lon - e.1.2) / (e.2.2 - e.1.2) : ℚ) : ℝ) *
                ((e.2.1 : ℝ) - (e.1.1 : ℝ)) := by
            rw [← htq]
            linarith [hV2]
          have := hlatR
          push_cast at this
          exact_mod_cast this
        · dsimp
          field_simp
    rcases not_and_or.mp hne with hx | hy
    · nlinarith [mul_self_pos.mpr hx, mul_self_nonneg (y1 + tc * (y2 - y1))]
    · nlinarith [mul_self_pos.mpr hy, mul_self_nonneg (x1 + tc * (x2 - x1))]

/-- Claim C4 (amended): the boundary distance is always nonnegative; a point lying
exactly on an edge segment classifies OnBoundary and has distance exactly 0; and a
point classified Inside or Outside has strictly positive distance for query latitudes
strictly between -90 and 90 (where the longitude scale `cos(lat * pi / 180)` is
positive).  An OnBoundary classification obtained only from the tolerance pass does
not make the distance 0 within floating tolerance: the collinearity test on a short
diagonal edge admits points over a hundred meters from every edge. -/
theorem distance_zero_iff_on_edge (poly : List Pt) (lat lon : ℚ) (h3 : 3 ≤ poly.length) :
    0 ≤ distance_to_polygon_meters poly lat lon ∧
      ((∃ e ∈ cycleEdges poly, onSegment (lat, lon) e) →
        classify_point poly lat lon COORD_TOLERANCE = .OnBoundary ∧
          distance_to_polygon_meters poly lat lon = 0) ∧
      (-90 < lat → lat < 90 →
        classify_point poly lat lon COORD_TOLERANCE ≠ .OnBoundary →
          0 < distance_to_polygon_meters poly lat lon) := by
  have htolpos : (0 : ℚ) < COORD_TOLERANCE := by norm_num [COORD_TOLERANCE]
  have hlen : (cycleEdges poly).length = poly.length := by
    simp [cycleEdges, List.length_zip, List.length_rotate]
  unfold distance_to_polygon_meters
  dsimp only
  cases hE : cycleEdges poly with
  | nil =>
    rw [hE] at hlen
    simp at hlen
    omega
  | cons e0 es =>
    rw [List.map_cons]
    dsimp only
    refine ⟨?_, ?_, ?_⟩
    · -- nonnegativity
      refine le_foldl_min (edgeDistance_nonneg _ _ _ _ _) (fun a ha => ?_)
      rcases List.mem_map.mp ha with ⟨e', _, rfl⟩
      exact edgeDistance_nonneg _ _ _ _ _
    · -- a point exactly on an edge: OnBoundary and distance 0
      rintro ⟨e, he, hseg⟩
      have hhit : boundaryHit poly lon lat COORD_TOLERANCE = true :=
        boundaryHit_of_onSegment htolpos (by rw [hE]; exact he) hseg
      refine ⟨by simp [classify_point, hhit], ?_⟩
      have hz : edgeDistance lat lon 111320
          (111320 * Real.cos ((lat : ℝ) * (Real.pi / 180))) e = 0 :=
        edgeDistance_eq_zero_of_onSegment _ _ _ _ _ hseg
      refine le_antisymm ?_ ?_
      · rcases List.mem_cons.mp he with rfl | he'
        · exact le_trans foldl_min_le_init (le_of_eq hz)
        · exact le_trans (foldl_min_le_mem (List.mem_map_of_mem _ he')) (le_of_eq hz)
      · refine le_foldl_min (edgeDistance_nonneg _ _ _ _ _) (fun a ha => ?_)
        rcases List.mem_map.mp ha with ⟨e', _, rfl⟩
        exact edgeDistance_nonneg _ _ _ _ _
    · -- off the boundary away from the poles: strictly positive distance
      intro hlat1 hlat2 hnotOB
      have hlatR1 : (-90 : ℝ) < (lat : ℝ) := by exact_mod_cast hlat1
      have hlatR2 : ((lat : ℝ)) < 90 := by exact_mod_cast hlat2
      have hpi : (0 : ℝ) < Real.pi / 180 := by positivity
      have hmem : (lat : ℝ) * (Real.pi / 180) ∈
          Set.Ioo (-(Real.pi / 2)) (Real.pi / 2) := by
        constructor
        · have h1 : (-90 : ℝ) * (Real.pi / 180) < (lat : ℝ) * (Real.pi / 180) :=
            mul_lt_mul_of_pos_right hlatR1 hpi
          have h2 : -(Real.pi / 2) = (-90 : ℝ) * (Real.pi / 180) := by ring
          linarith
        · have h1 : (lat : ℝ) * (Real.pi / 180) < (90 : ℝ) * (Real.pi / 180) :=
            mul_lt_mul_of_pos_right hlatR2 hpi
          have h2 : Real.pi / 2 = (90 : ℝ) * (Real.pi / 180) := by ring
          linarith
      have hcos : Real.cos ((lat : ℝ) * (Real.pi / 180)) ≠ 0 :=
        (Real.cos_pos_of_mem_Ioo hmem).ne'
      have hmlon : (111320 : ℝ) * Real.cos ((lat : ℝ) * (Real.pi / 180)) ≠ 0 :=
        mul_ne_zero (by norm_num) hcos
      have hnb : boundaryHit poly lon lat COORD_TOLERANCE = false := by
        by_contra hcon
        rw [Bool.not_eq_false] at hcon
        exact hnotOB (by simp [classify_point, hcon])
      have hnoseg : ∀ e ∈ e0 :: es, ¬ onSegment (lat, lon) e := by
        intro e he hseg
        have hhit : boundaryHit poly lon lat COORD_TOLERANCE = true :=
          boundaryHit_of_onSegment htolpos (by rw [hE]; exact he) hseg
        rw [hnb] at hhit
        exact Bool.false_ne_true hhit
      refine lt_foldl_min
        (edgeDistance_pos lat lon (by norm_num) hmlon e0 (hnoseg e0 (by simp)))
        (fun a ha => ?_)
      rcases List.mem_map.mp ha with ⟨e', he', rfl⟩
      exact edgeDistance_pos lat lon (by norm_num) hmlon e'
        (hnoseg e' (List.mem_cons_of_mem _ he'))

lemma le_sqrt_of_sq_le {c x : ℝ} (hc : 0 ≤ c) (h : c * c ≤ x) : c ≤ Real.sqrt x := by
  have h2 : Real.sqrt (c * c) ≤ Real.sqrt x := Real.sqrt_le_sqrt h
  rwa [Real.sqrt_mul_self hc] at h2

/-- Lower bound on the per-edge distance when both endpoint latitude offsets are
bounded away from 0 on the same side: the projection point's second coordinate is a
convex combination and inherits the bound. -/
lemma edgeDistance_ge_of_lat_bound (lat lon : ℚ) (mlat mlon : ℝ) (e : Pt × Pt)
    (c : ℝ) (hc : 0 ≤ c)
    (hb : (c ≤ ((e.1.1 : ℝ) - (lat : ℝ)) * mlat ∧ c ≤ ((e.2.1 : ℝ) - (lat : ℝ)) * mlat) ∨
        (((e.1.1 : ℝ) - (lat : ℝ)) * mlat ≤ -c ∧ ((e.2.1 : ℝ) - (lat : ℝ)) * mlat ≤ -c)) :
    c ≤ edgeDistance lat lon mlat mlon e := by
  unfold edgeDistance
  dsimp only
  generalize hgx1 : ((e.1.2 : ℝ) - (lon : ℝ)) * mlon = x1
  generalize hgy1 : ((e.1.1 : ℝ) - (lat : ℝ)) * mlat = y1
  generalize hgx2 : ((e.2.2 : ℝ) - (lon : ℝ)) * mlon = x2
  generalize hgy2 : ((e.2.1 : ℝ) - (lat : ℝ)) * mlat = y2
  rw [hgy1, hgy2] at hb
  by_cases h : x2 - x1 = 0 ∧ y2 - y1 = 0
  · rw [if_pos h]
    apply le_sqrt_of_sq_le hc
    rcases hb with ⟨h1, -⟩ | ⟨h1, -⟩ <;> nlinarith [sq_nonneg x1]
  · rw [if_neg h]
    apply le_sqrt_of_sq_le hc
    generalize hT : max (0 : ℝ) (min 1 ((-(x1 * (x2 - x1)) - y1 * (y2 - y1)) /
      ((x2 - x1) * (x2 - x1) + (y2 - y1) * (y2 - y1)))) = T
    have hT0 : (0 : ℝ) ≤ T := hT ▸ le_max_left _ _
    have hT1 : T ≤ 1 := hT ▸ max_le zero_le_one (min_le_left _ _)
    rcases hb with ⟨h1, h2⟩ | ⟨h1, h2⟩
    · have hv : c ≤ y1 + T * (y2 - y1) :=
        le_trans (le_min h1 h2) (convex_min_le y1 y2 T hT0 hT1)
      nlinarith [hv, sq_nonneg (x1 + T * (x2 - x1))]
    · have hv : y1 + T * (y2 - y1) ≤ -c :=
        le_trans (convex_le_max y1 y2 T hT0 hT1) (max_le h1 h2)
      nlinarith [hv, sq_nonneg (x1 + T * (x2 - x1))]

/-- Twin of the previous lemma for the longitude offsets. -/
lemma edgeDistance_ge_of_lon_bound (lat lon : ℚ) (mlat mlon : ℝ) (e : Pt × Pt)
    (c : ℝ) (hc : 0 ≤ c)
    (hb : (c ≤ ((e.1.2 : ℝ) - (lon : ℝ)) * mlon ∧ c ≤ ((e.2.2 : ℝ) - (lon : ℝ)) * mlon) ∨
        (((e.1.2 : ℝ) - (lon : ℝ)) * mlon ≤ -c ∧ ((e.2.2 : ℝ) - (lon : ℝ)) * mlon ≤ -c)) :
    c ≤ edgeDistance lat lon mlat mlon e := by
  unfold edgeDistance
  dsimp only
  generalize hgx1 : ((e.1.2 : ℝ) - (lon : ℝ)) * mlon = x1
  generalize hgy1 : ((e.1.1 : ℝ) - (lat : ℝ)) * mlat = y1
  generalize hgx2 : ((e.2.2 : ℝ) - (lon : ℝ)) * mlon = x2
  generalize hgy2 : ((e.2.1 : ℝ) - (lat : ℝ)) * mlat = y2
  rw [hgx1, hgx2] at hb
  by_cases h : x2 - x1 = 0 ∧ y2 - y1 = 0
  · rw [if_pos h]
    apply le_sqrt_of_sq_le hc
    rcases hb with ⟨h1, -⟩ | ⟨h1, -⟩ <;> nlinarith [sq_nonneg y1]
  · rw [if_neg h]
    apply le_sqrt_of_sq_le hc
    generalize hT : max (0 : ℝ) (min 1 ((-(x1 * (x2 - x1)) - y1 * (y2 - y1)) /
      ((x2 - x1) * (x2 - x1) + (y2 - y1) * (y2 - y1)))) = T
    have hT0 : (0 : ℝ) ≤ T := hT ▸ le_max_left _ _
    have hT1 : T ≤ 1 := hT ▸ max_le zero_le_one (min_le_left _ _)
    rcases hb with ⟨h1, h2⟩ | ⟨h1, h2⟩
    · have hu : c ≤ x1 + T * (x2 - x1) :=
        le_trans (le_min h1 h2) (convex_min_le x1 x2 T hT0 hT1)
      nlinarith [hu, sq_nonneg (y1 + T * (y2 - y1))]
    · have hu : x1 + T * (x2 - x1) ≤ -c :=
        le_trans (convex_le_max x1 x2 T hT0 hT1) (max_le h1 h2)
      nlinarith [hu, sq_nonneg (y1 + T * (y2 - y1))]

/-- Lower bound on the per-edge distance for an edge whose planar direction is the
diagonal `dx = dy`: every point of the edge's supporting line keeps the same value of
`u - v`, so the distance is at least `|x1 - y1| / sqrt 2` regardless of the projection
parameter. -/
lemma edgeDistance_ge_of_diag (lat lon : ℚ) (mlat mlon : ℝ) (e : Pt × Pt)
    (c : ℝ) (hc : 0 ≤ c)
    (hdiag : ((e.2.2 : ℝ) - (lon : ℝ)) * mlon - ((e.1.2 : ℝ) - (lon : ℝ)) * mlon =
        ((e.2.1 : ℝ) - (lat : ℝ)) * mlat - ((e.1.1 : ℝ) - (lat : ℝ)) * mlat)
    (hgap : c * c * 2 ≤
        (((e.1.2 : ℝ) - (lon : ℝ)) * mlon - ((e.1.1 : ℝ) - (lat : ℝ)) * mlat) *
          (((e.1.2 : ℝ) - (lon : ℝ)) * mlon - ((e.1.1 : ℝ) - (lat : ℝ)) * mlat)) :
    c ≤ edgeDistance lat lon mlat mlon e := by
  unfold edgeDistance
  dsimp only
  generalize hgx1 : ((e.1.2 : ℝ) - (lon : ℝ)) * mlon = x1
  generalize hgy1 : ((e.1.1 : ℝ) - (lat : ℝ)) * mlat = y1
  generalize hgx2 : ((e.2.2 : ℝ) - (lon : ℝ)) * mlon = x2
  generalize hgy2 : ((e.2.1 : ℝ) - (lat : ℝ)) * mlat = y2
  rw [hgx1, hgx2, hgy1, hgy2] at hdiag
  rw [hgx1, hgy1] at hgap
  by_cases h : x2 - x1 = 0 ∧ y2 - y1 = 0
  · rw [if_pos h]
    apply le_sqrt_of_sq_le hc
    nlinarith [hgap, sq_nonneg (x1 + y1)]
  · rw [if_neg h]
    apply le_sqrt_of_sq_le hc
    generalize hT : max (0 : ℝ) (min 1 ((-(x1 * (x2 - x1)) - y1 * (y2 - y1)) /
      ((x2 - x1) * (x2 - x1) + (y2 - y1) * (y2 - y1)))) = T
    rw [hdiag]
    nlinarith [hgap, sq_nonneg (x1 + T * (y2 - y1) + (y1 + T * (y2 - y1)))]

section ConcreteEvaluations

attribute [local semireducible] Rat.add Rat.mul Rat.sub Rat.inv

/-- Witness for C1 at the square `[[0,0],[0,10],[10,10],[10,0]]` and the boundary
point `(0, 5)`. -/
theorem boundary_pass_wins_witness :
    3 ≤ ([(0, 0), (0, 10), (10, 10), (10, 0)] : List Pt).length ∧
      (∃ e ∈ cycleEdges [(0, 0), (0, 10), (10, 10), (10, 0)],
        edgeNear 5 0 COORD_TOLERANCE e = true) ∧
      classify_point [(0, 0), (0, 10), (10, 10), (10, 0)] 0 5 COORD_TOLERANCE =
        .OnBoundary ∧
      sensor_point_in_polygon [(0, 0), (0, 10), (10, 10), (10, 0)] 0 5 = true :=
  ⟨by decide, by decide,
    (boundary_pass_wins _ 0 5 (by decide) (by decide)).1,
    (boundary_pass_wins _ 0 5 (by decide) (by decide)).2.1⟩

/-- Witness for C10 at the square and its vertex `(0, 10)`. -/
theorem vertex_classifies_on_boundary_witness :
    3 ≤ ([(0, 0), (0, 10), (10, 10), (10, 0)] : List Pt).length ∧
      (0 : ℚ) < COORD_TOLERANCE ∧
      ((0 : ℚ), (10 : ℚ)) ∈ ([(0, 0), (0, 10), (10, 10), (10, 0)] : List Pt) ∧
      classify_point [(0, 0), (0, 10), (10, 10), (10, 0)] 0 10 COORD_TOLERANCE =
        .OnBoundary :=
  ⟨by decide, by decide, by decide,
    vertex_classifies_on_boundary _ COORD_TOLERANCE ((0 : ℚ), (10 : ℚ))
      (by decide) (by decide) (by decide)⟩

/-- Claim C9 counterexample: at `(lat, lon) = (-1/2000000, 5)`, a hair below the bottom
edge of the square, the sensor's implementation (tolerance 1e-5) accepts via its
collinearity test while the binary sensor's implementation (tolerance 1e-6, swapped
axes) rejects: the two copies of the polygon math are not extensionally equal. -/
theorem sensor_binary_disagree :
    sensor_point_in_polygon [(0, 0), (0, 10), (10, 10), (10, 0)] (-1 / 2000000) 5 =
        true ∧
      binary_point_in_polygon [(0, 0), (0, 10), (10, 10), (10, 0)] (-1 / 2000000) 5 =
        false := by
  constructor <;> decide

/-- Claim C2 counterexample: the point `(0, 10 + 1/200000)` has longitude strictly
greater than every vertex longitude of the square (strictly outside the bounding box),
yet it classifies OnBoundary, not Outside: the vertex check at `(0, 10)` fires because
the overshoot is below the tolerance. -/
theorem outside_bbox_not_outside :
    (∀ p ∈ ([(0, 0), (0, 10), (10, 10), (10, 0)] : List Pt), p.2 < 10 + 1 / 200000) ∧
      classify_point [(0, 0), (0, 10), (10, 10), (10, 0)] 0 (10 + 1 / 200000)
          COORD_TOLERANCE = .OnBoundary ∧
      sensor_point_in_polygon [(0, 0), (0, 10), (10, 10), (10, 0)] 0 (10 + 1 / 200000) =
        true := by
  refine ⟨by decide, by decide, by decide⟩

/-- Witness for the amended C2 at the square and the far point `(20, 20)`. -/
theorem outside_expanded_bbox_is_outside_witness :
    3 ≤ ([(0, 0), (0, 10), (10, 10), (10, 0)] : List Pt).length ∧
      (∀ p ∈ ([(0, 0), (0, 10), (10, 10), (10, 0)] : List Pt),
        p.1 + COORD_TOLERANCE < 20) ∧
      classify_point [(0, 0), (0, 10), (10, 10), (10, 0)] 20 20 COORD_TOLERANCE =
        .Outside :=
  ⟨by decide, by decide,
    (outside_expanded_bbox_is_outside _ 20 20 (by decide)
      (Or.inr (Or.inr (Or.inl (by decide))))).1⟩

/-- Witness for the amended C9 at the square and the boundary point `(0, 5)`, where
the binary sensor's near-boundary pass fires. -/
theorem binary_boundary_implies_both_witness :
    3 ≤ ([(0, 0), (0, 10), (10, 10), (10, 0)] : List Pt).length ∧
      (∃ e ∈ cycleEdges [((0 : ℚ), (0 : ℚ)), (0, 10), (10, 10), (10, 0)],
        binEdgeNear 0 5 e = true) ∧
      binary_point_in_polygon [(0, 0), (0, 10), (10, 10), (10, 0)] 0 5 = true ∧
      sensor_point_in_polygon [(0, 0), (0, 10), (10, 10), (10, 0)] 0 5 = true :=
  ⟨by decide, by decide,
    (binary_boundary_implies_both _ 0 5 (by decide) (by decide)).1,
    (binary_boundary_implies_both _ 0 5 (by decide) (by decide)).2⟩

/-- Witness for C3 at the square and the point `(-1, -1)`. -/
theorem boundary_distance_refines_witness :
    3 ≤ ([(0, 0), (0, 10), (10, 10), (10, 0)] : List Pt).length ∧
      spec_boundary_distance_meters [(0, 0), (0, 10), (10, 10), (10, 0)] (-1) (-1) =
        distance_to_polygon_meters [(0, 0), (0, 10), (10, 10), (10, 0)] (-1) (-1) :=
  ⟨by decide, boundary_distance_refines _ (-1) (-1) (by decide)⟩

/-- Witness for the amended C4 at the square and the point `(0, 5)`. -/
theorem distance_zero_iff_on_edge_witness :
    3 ≤ ([(0, 0), (0, 10), (10, 10), (10, 0)] : List Pt).length ∧
      (0 ≤ distance_to_polygon_meters [(0, 0), (0, 10), (10, 10), (10, 0)] 0 5 ∧
        ((∃ e ∈ cycleEdges [((0 : ℚ), (0 : ℚ)), (0, 10), (10, 10), (10, 0)],
            onSegment (0, 5) e) →
          classify_point [(0, 0), (0, 10), (10, 10), (10, 0)] 0 5 COORD_TOLERANCE =
              .OnBoundary ∧
            distance_to_polygon_meters [(0, 0), (0, 10), (10, 10), (10, 0)] 0 5 = 0) ∧
        ((-90 : ℚ) < 0 → (0 : ℚ) < 90 →
          classify_point [(0, 0), (0, 10), (10, 10), (10, 0)] 0 5 COORD_TOLERANCE ≠
              .OnBoundary →
            0 < distance_to_polygon_meters [(0, 0), (0, 10), (10, 10), (10, 0)] 0 5)) :=
  ⟨by decide, distance_zero_iff_on_edge _ 0 5 (by decide)⟩

/-- Claim C4 counterexample: for the polygon `[(-0.003, 0), (0, 0.003), (-1, 1)]` the
query point `(0, 0)` sits at the right-angle corner of the short diagonal first edge:
the bounding-box pre-check passes and the cross product is `0.003^2 = 9e-6 < 1e-5`, so
the point classifies OnBoundary - yet its boundary distance is at least 100 meters
(it is about 236 m, the diagonal's perpendicular offset `0.003 * 111320 / sqrt 2`),
nowhere near 0 within floating tolerance. -/
theorem on_boundary_far_from_edge :
    classify_point [(-3 / 1000, 0), (0, 3 / 1000), (-1, 1)] 0 0 COORD_TOLERANCE =
        .OnBoundary ∧
      (100 : ℝ) ≤ distance_to_polygon_meters [(-3 / 1000, 0), (0, 3 / 1000), (-1, 1)] 0 0 := by
  constructor
  · decide
  · have hE : cycleEdges [((-3 / 1000 : ℚ), (0 : ℚ)), (0, 3 / 1000), (-1, 1)] =
        [((-3 / 1000, 0), (0, 3 / 1000)), ((0, 3 / 1000), (-1, 1)),
          ((-1, 1), (-3 / 1000, 0))] := by decide
    have hm : (111320 : ℝ) * Real.cos (((0 : ℚ) : ℝ) * (Real.pi / 180)) = 111320 := by
      norm_num [Real.cos_zero]
    unfold distance_to_polygon_meters
    dsimp only
    rw [hm, hE, List.map_cons, List.map_cons, List.map_cons, List.map_nil]
    dsimp only
    refine le_foldl_min ?_ ?_
    · refine edgeDistance_ge_of_diag 0 0 111320 111320 _ 100 (by norm_num) ?_ ?_
      · push_cast
        norm_num
      · push_cast
        norm_num
    · intro d hd
      simp only [List.mem_cons, List.not_mem_nil, or_false] at hd
      rcases hd with rfl | rfl
      · refine edgeDistance_ge_of_lon_bound 0 0 111320 111320 _ 100 (by norm_num)
          (Or.inl ⟨?_, ?_⟩) <;> (push_cast; norm_num)
      · refine edgeDistance_ge_of_lat_bound 0 0 111320 111320 _ 100 (by norm_num)
          (Or.inr ⟨?_, ?_⟩) <;> (push_cast; norm_num)

end ConcreteEvaluations

/-! ### Tracker state claims (C5 - C8) -/

/-- Claim C5 (amended): an update whose latitude or longitude raises `ValueError` in
`float()` (a non-numeric value) leaves the whole tracker state exactly unchanged and
fires no state refresh.  Non-finite values such as NaN do not take this path:
`float("nan")` succeeds and the update is processed as a normal position update. -/
theorem bad_coordinate_leaves_state_unchanged (poly : List Pt)
    (distR : PyF → PyF → PyF) (s : TrackerState) (e : ℕ)
    (rlat rlon : RawCoord) (racc : RawAcc)
    (hbad : rlat = .bad ∨ rlon = .bad)
    (hlat : rlat ≠ .missing) (hlon : rlon ≠ .missing) :
    handleTrackerUpdate poly distR s e (.pos rlat rlon racc) = (s, false) := by
  cases rlat <;> cases rlon <;> simp_all [handleTrackerUpdate]

/-- Claim C6 (amended): the unavailable branch clears the stored position, accuracy
and distance, forces `in_zone` to false, removes the entity from the in-zone set - and
unconditionally fires a state refresh on every such call: the code performs no
availability-transition deduplication. -/
theorem unavailable_clears_and_always_fires (poly : List Pt)
    (distR : PyF → PyF → PyF) (s : TrackerState) (e : ℕ)
    (hnd : s.trackersInside.Nodup) :
    (handleTrackerUpdate poly distR s e .gone).1.trackerData e = initData ∧
      e ∉ (handleTrackerUpdate poly distR s e .gone).1.trackersInside ∧
      (handleTrackerUpdate poly distR s e .gone).2 = true := by
  refine ⟨by simp [handleTrackerUpdate, clearEntity], ?_, rfl⟩
  simp only [handleTrackerUpdate, clearEntity]
  intro hmem
  exact ((hnd.mem_erase_iff).mp hmem).1 rfl

lemma trackerInv_clear {trackedIds : List ℕ} {s : TrackerState} (e : ℕ)
    (h : TrackerInv trackedIds s) : TrackerInv trackedIds (clearEntity s e) := by
  obtain ⟨hnd, hsub, hiff, hlat⟩ := h
  refine ⟨hnd.erase e, fun e2 he2 => hsub e2 (List.mem_of_mem_erase he2), fun e2 => ?_,
    fun e2 => ?_⟩
  · by_cases hcase : e2 = e
    · subst hcase
      simp [clearEntity, hnd.mem_erase_iff, initData]
    · simp [clearEntity, hnd.mem_erase_iff, hcase, hiff e2]
  · by_cases hcase : e2 = e
    · subst hcase
      simp [clearEntity, initData]
    · simp [clearEntity, hcase]
      exact hlat e2

lemma trackerInv_step (poly : List Pt) (distR : PyF → PyF → PyF)
    {trackedIds : List ℕ} {s : TrackerState} {e : ℕ} (upd : TrackerUpd)
    (he : e ∈ trackedIds) (h : TrackerInv trackedIds s) :
    TrackerInv trackedIds (handleTrackerUpdate poly distR s e upd).1 := by
  obtain ⟨hnd, hsub, hiff, hlat⟩ := h
  cases upd with
  | gone => exact trackerInv_clear e ⟨hnd, hsub, hiff, hlat⟩
  | pos rlat rlon racc =>
    cases rlat with
    | missing => cases rlon <;> exact trackerInv_clear e ⟨hnd, hsub, hiff, hlat⟩
    | bad =>
      cases rlon with
      | missing => exact trackerInv_clear e ⟨hnd, hsub, hiff, hlat⟩
      | bad => exact ⟨hnd, hsub, hiff, hlat⟩
      | val v => exact ⟨hnd, hsub, hiff, hlat⟩
    | val vlat =>
      cases rlon with
      | missing => exact trackerInv_clear e ⟨hnd, hsub, hiff, hlat⟩
      | bad => exact ⟨hnd, hsub, hiff, hlat⟩
      | val vlon =>
        simp only [handleTrackerUpdate]
        by_cases hin : pyPointInPolygon poly vlat vlon = true
        · refine ⟨?_, ?_, ?_, ?_⟩
          · simp only [hin, if_true]
            exact hnd.insert
          · intro e2 he2
            simp only [hin, if_true, List.mem_insert_iff] at he2
            rcases he2 with rfl | he2
            · exact he
            · exact hsub e2 he2
          · intro e2
            by_cases hcase : e2 = e
            · subst hcase
              simp [hin, List.mem_insert_iff]
            · simp [hin, List.mem_insert_iff, hcase, hiff e2]
          · intro e2
            by_cases hcase : e2 = e
            · subst hcase
              simp [hin]
            · simp [hin, hcase]
              exact hlat e2
        · rw [Bool.not_eq_true] at hin
          refine ⟨?_, ?_, ?_, ?_⟩
          · simp only [hin, if_false]
            exact hnd.erase e
          · intro e2 he2
            simp only [hin, if_false] at he2
            exact hsub e2 (List.mem_of_mem_erase he2)
          · intro e2
            by_cases hcase : e2 = e
            · subst hcase
              simp [hin, hnd.mem_erase_iff]
            · simp [hin, hnd.mem_erase_iff, hcase, hiff e2]
          · intro e2
            by_cases hcase : e2 = e
            · subst hcase
              simp [hin]
            · simp [hin, hcase]
              exact hlat e2

lemma trackerInv_foldl (poly : List Pt) (distR : PyF → PyF → PyF)
    (trackedIds : List ℕ) :
    ∀ (ops : List (ℕ × TrackerUpd)) (s : TrackerState), TrackerInv trackedIds s →
      (∀ op ∈ ops, op.1 ∈ trackedIds) →
      TrackerInv trackedIds
        (ops.foldl (fun s2 op => (handleTrackerUpdate poly distR s2 op.1 op.2).1) s) := by
  intro ops
  induction ops with
  | nil => intro s hs _; exact hs
  | cons op rest ih =>
    intro s hs hops
    rw [List.foldl_cons]
    exact ih _ (trackerInv_step poly distR op.2 (hops op (by simp)) hs)
      (fun op2 h2 => hops op2 (List.mem_cons_of_mem _ h2))

lemma trackerInv_run (poly : List Pt) (distR : PyF → PyF → PyF)
    (trackedIds : List ℕ) (ops : List (ℕ × TrackerUpd))
    (hops : ∀ op ∈ ops, op.1 ∈ trackedIds) :
    TrackerInv trackedIds (runTracker poly distR ops) := by
  have hinit : TrackerInv trackedIds initState := by
    refine ⟨List.nodup_nil, by simp [initState], fun e => ?_, fun e => ?_⟩
    · simp [initState, initData]
    · simp [initState, initData]
  exact trackerInv_foldl poly distR trackedIds ops initState hinit hops

/-- Claim C7: after any sequence of updates on tracked entities, the summary view
partitions the tracked ids: the in-zone and out-of-zone lists are disjoint, their union
is the tracked set, both are sorted, the count equals the in-zone length, and the
in-zone list is exactly the tracked entities whose `in_zone` flag is set and whose last
update stored a position (did not mark them unavailable). -/
theorem summary_partition_invariant (poly : List Pt) (distR : PyF → PyF → PyF)
    (trackedIds : List ℕ) (ops : List (ℕ × TrackerUpd))
    (hops : ∀ op ∈ ops, op.1 ∈ trackedIds) :
    (∀ x ∈ summaryInZone (runTracker poly distR ops),
        x ∉ summaryOutZone trackedIds (runTracker poly distR ops)) ∧
      (∀ x, (x ∈ summaryInZone (runTracker poly distR ops) ∨
          x ∈ summaryOutZone trackedIds (runTracker poly distR ops)) ↔
        x ∈ trackedIds) ∧
      (summaryInZone (runTracker poly distR ops)).Sorted (· ≤ ·) ∧
      (summaryOutZone trackedIds (runTracker poly distR ops)).Sorted (· ≤ ·) ∧
      countInZone (runTracker poly distR ops) =
        (summaryInZone (runTracker poly distR ops)).length ∧
      (∀ x, x ∈ summaryInZone (runTracker poly distR ops) ↔
        x ∈ trackedIds ∧
          ((runTracker poly distR ops).trackerData x).in_zone = true ∧
          ((runTracker poly distR ops).trackerData x).lat ≠ none) := by
  obtain ⟨hnd, hsub, hiff, hlatI⟩ := trackerInv_run poly distR trackedIds ops hops
  set s := runTracker poly distR ops with hs
  have hmemIn : ∀ x, x ∈ summaryInZone s ↔ x ∈ s.trackersInside := fun x =>
    (List.mergeSort_perm _ _).mem_iff
  have hmemOut : ∀ x,
      x ∈ summaryOutZone trackedIds s ↔ x ∈ trackedIds ∧ x ∉ s.trackersInside := by
    intro x
    unfold summaryOutZone
    rw [(List.mergeSort_perm _ _).mem_iff, List.mem_filter]
    simp
  refine ⟨?_, ?_, ?_, ?_, rfl, ?_⟩
  · intro x hx
    rw [hmemOut]
    rw [hmemIn] at hx
    rintro ⟨-, hno⟩
    exact hno hx
  · intro x
    rw [hmemIn, hmemOut]
    constructor
    · rintro (h | h)
      · exact hsub x h
      · exact h.1
    · intro hx
      by_cases hin : x ∈ s.trackersInside
      · exact Or.inl hin
      · exact Or.inr ⟨hx, hin⟩
  · exact List.sorted_mergeSort' _
  · exact List.sorted_mergeSort' _
  · intro x
    rw [hmemIn]
    constructor
    · intro hx
      have hflag := (hiff x).mp hx
      exact ⟨hsub x hx, hflag, hlatI x hflag⟩
    · rintro ⟨-, hflag, -⟩
      exact (hiff x).mpr hflag

/-- Claim C8: two position updates agreeing on entity, latitude and longitude but with
arbitrary different accuracy values produce the same in-zone set, the same per-entity
position, membership flag and boundary distance, and the same notification behaviour:
accuracy never influences the classification. -/
theorem accuracy_never_influences (poly : List Pt) (distR : PyF → PyF → PyF)
    (s : TrackerState) (e : ℕ) (rlat rlon : RawCoord) (acc acc2 : RawAcc) :
    (handleTrackerUpdate poly distR s e (.pos rlat rlon acc)).1.trackersInside =
        (handleTrackerUpdate poly distR s e (.pos rlat rlon acc2)).1.trackersInside ∧
      (∀ e2,
        ((handleTrackerUpdate poly distR s e (.pos rlat rlon acc)).1.trackerData e2).lat =
          ((handleTrackerUpdate poly distR s e (.pos rlat rlon acc2)).1.trackerData e2).lat ∧
        ((handleTrackerUpdate poly distR s e (.pos rlat rlon acc)).1.trackerData e2).lon =
          ((handleTrackerUpdate poly distR s e (.pos rlat rlon acc2)).1.trackerData e2).lon ∧
        ((handleTrackerUpdate poly distR s e
            (.pos rlat rlon acc)).1.trackerData e2).in_zone =
          ((handleTrackerUpdate poly distR s e
            (.pos rlat rlon acc2)).1.trackerData e2).in_zone ∧
        ((handleTrackerUpdate poly distR s e
            (.pos rlat rlon acc)).1.trackerData e2).distance =
          ((handleTrackerUpdate poly distR s e
            (.pos rlat rlon acc2)).1.trackerData e2).distance) ∧
      (handleTrackerUpdate poly distR s e (.pos rlat rlon acc)).2 =
        (handleTrackerUpdate poly distR s e (.pos rlat rlon acc2)).2 := by
  cases rlat <;> cases rlon <;>
    refine ⟨rfl, fun e2 => ?_, rfl⟩ <;>
    by_cases h : e2 = e <;>
    simp [handleTrackerUpdate, h]

section TrackerConcrete

attribute [local semireducible] Rat.add Rat.mul Rat.sub Rat.inv List.merge List.mergeSort

/-- Witness for the amended C5: a non-numeric latitude leaves the state exactly
unchanged and fires nothing. -/
theorem bad_coordinate_leaves_state_unchanged_witness :
    (RawCoord.bad = RawCoord.bad ∨ RawCoord.val (PyF.num 5) = RawCoord.bad) ∧
      RawCoord.bad ≠ RawCoord.missing ∧
      RawCoord.val (PyF.num 5) ≠ RawCoord.missing ∧
      handleTrackerUpdate squarePoly distZero initState 0
          (.pos .bad (.val (.num 5)) .amissing) =
        (initState, false) :=
  ⟨Or.inl rfl, by decide, by decide,
    bad_coordinate_leaves_state_unchanged squarePoly distZero initState 0 _ _ _
      (Or.inl rfl) (by decide) (by decide)⟩

/-- Claim C5 counterexample: a NaN latitude is not rejected.  After entity 0 is inside
the square at `(5, 5)`, an update with latitude NaN is processed as a normal update:
the entity's slot changes, its membership flag flips to false and it leaves the in-zone
set, so the prior state is not retained. -/
theorem nan_position_update_changes_state :
    ((handleTrackerUpdate squarePoly distZero initState 0
        (.pos (.val (.num 5)) (.val (.num 5)) .amissing)).1.trackerData 0).in_zone =
        true ∧
      0 ∈ (handleTrackerUpdate squarePoly distZero initState 0
        (.pos (.val (.num 5)) (.val (.num 5)) .amissing)).1.trackersInside ∧
      (handleTrackerUpdate squarePoly distZero
          ((handleTrackerUpdate squarePoly distZero initState 0
            (.pos (.val (.num 5)) (.val (.num 5)) .amissing)).1) 0
          (.pos (.val .nan) (.val (.num 5)) .amissing)).1.trackerData 0 ≠
        (handleTrackerUpdate squarePoly distZero initState 0
          (.pos (.val (.num 5)) (.val (.num 5)) .amissing)).1.trackerData 0 ∧
      ((handleTrackerUpdate squarePoly distZero
          ((handleTrackerUpdate squarePoly distZero initState 0
            (.pos (.val (.num 5)) (.val (.num 5)) .amissing)).1) 0
          (.pos (.val .nan) (.val (.num 5)) .amissing)).1.trackerData 0).in_zone =
        false ∧
      0 ∉ (handleTrackerUpdate squarePoly distZero
          ((handleTrackerUpdate squarePoly distZero initState 0
            (.pos (.val (.num 5)) (.val (.num 5)) .amissing)).1) 0
          (.pos (.val .nan) (.val (.num 5)) .amissing)).1.trackersInside := by
  refine ⟨by decide, by decide, by decide, by decide, by decide⟩

/-- Witness for the amended C6 at the empty initial state. -/
theorem unavailable_clears_and_always_fires_witness :
    initState.trackersInside.Nodup ∧
      ((handleTrackerUpdate squarePoly distZero initState 0 .gone).1.trackerData 0 =
          initData ∧
        0 ∉ (handleTrackerUpdate squarePoly distZero initState 0 .gone).1.trackersInside ∧
        (handleTrackerUpdate squarePoly distZero initState 0 .gone).2 = true) :=
  ⟨List.nodup_nil,
    unavailable_clears_and_always_fires squarePoly distZero initState 0 List.nodup_nil⟩

/-- Claim C6 counterexample: entity 0 is brought inside the square, then marked
unavailable twice.  After the first unavailable update the slot is already fully
cleared, yet the second unavailable update still fires a state refresh - it is not the
case that only the first transition is reported. -/
theorem second_unavailable_still_fires :
    ((handleTrackerUpdate squarePoly distZero initState 0
        (.pos (.val (.num 5)) (.val (.num 5)) .amissing)).1.trackerData 0).in_zone =
        true ∧
      (handleTrackerUpdate squarePoly distZero
          ((handleTrackerUpdate squarePoly distZero initState 0
            (.pos (.val (.num 5)) (.val (.num 5)) .amissing)).1) 0 .gone).1.trackerData
          0 = initData ∧
      (handleTrackerUpdate squarePoly distZero
        ((handleTrackerUpdate squarePoly distZero
          ((handleTrackerUpdate squarePoly distZero initState 0
            (.pos (.val (.num 5)) (.val (.num 5)) .amissing)).1) 0 .gone).1) 0
        .gone).2 = true := by
  refine ⟨by decide, by decide, by decide⟩

/-- Witness for C7: two tracked entities, one updated to an inside point and one to an
outside point. -/
theorem summary_partition_invariant_witness :
    (∀ op ∈ ([(0, TrackerUpd.pos (.val (.num 5)) (.val (.num 5)) .amissing),
        (1, TrackerUpd.pos (.val (.num 20)) (.val (.num 20)) .amissing)] :
        List (ℕ × TrackerUpd)), op.1 ∈ [0, 1]) ∧
      ((∀ x ∈ summaryInZone (runTracker squarePoly distZero
          [(0, TrackerUpd.pos (.val (.num 5)) (.val (.num 5)) .amissing),
           (1, TrackerUpd.pos (.val (.num 20)) (.val (.num 20)) .amissing)]),
          x ∉ summaryOutZone [0, 1] (runTracker squarePoly distZero
          [(0, TrackerUpd.pos (.val (.num 5)) (.val (.num 5)) .amissing),
           (1, TrackerUpd.pos (.val (.num 20)) (.val (.num 20)) .amissing)])) ∧
        (∀ x, (x ∈ summaryInZone (runTracker squarePoly distZero
            [(0, TrackerUpd.pos (.val (.num 5)) (.val (.num 5)) .amissing),
             (1, TrackerUpd.pos (.val (.num 20)) (.val (.num 20)) .amissing)]) ∨
            x ∈ summaryOutZone [0, 1] (runTracker squarePoly distZero
            [(0, TrackerUpd.pos (.val (.num 5)) (.val (.num 5)) .amissing),
             (1, TrackerUpd.pos (.val (.num 20)) (.val (.num 20)) .amissing)])) ↔
          x ∈ [0, 1]) ∧
        (summaryInZone (runTracker squarePoly distZero
          [(0, TrackerUpd.pos (.val (.num 5)) (.val (.num 5)) .amissing),
           (1, TrackerUpd.pos (.val (.num 20)) (.val (.num 20)) .amissing)])).Sorted
          (· ≤ ·) ∧
        (summaryOutZone [0, 1] (runTracker squarePoly distZero
          [(0, TrackerUpd.pos (.val (.num 5)) (.val (.num 5)) .amissing),
           (1, TrackerUpd.pos (.val (.num 20)) (.val (.num 20)) .amissing)])).Sorted
          (· ≤ ·) ∧
        countInZone (runTracker squarePoly distZero
          [(0, TrackerUpd.pos (.val (.num 5)) (.val (.num 5)) .amissing),
           (1, TrackerUpd.pos (.val (.num 20)) (.val (.num 20)) .amissing)]) =
          (summaryInZone (runTracker squarePoly distZero
          [(0, TrackerUpd.pos (.val (.num 5)) (.val (.num 5)) .amissing),
           (1, TrackerUpd.pos (.val (.num 20)) (.val (.num 20)) .amissing)])).length ∧
        (∀ x, x ∈ summaryInZone (runTracker squarePoly distZero
            [(0, TrackerUpd.pos (.val (.num 5)) (.val (.num 5)) .amissing),
             (1, TrackerUpd.pos (.val (.num 20)) (.val (.num 20)) .amissing)]) ↔
          x ∈ [0, 1] ∧
            ((runTracker squarePoly distZero
              [(0, TrackerUpd.pos (.val (.num 5)) (.val (.num 5)) .amissing),
               (1, TrackerUpd.pos (.val (.num 20)) (.val (.num 20)) .amissing)]).trackerData
              x).in_zone = true ∧
            ((runTracker squarePoly distZero
              [(0, TrackerUpd.pos (.val (.num 5)) (.val (.num 5)) .amissing),
               (1, TrackerUpd.pos (.val (.num 20)) (.val (.num 20)) .amissing)]).trackerData
              x).lat ≠ none)) :=
  ⟨by decide, summary_partition_invariant squarePoly distZero [0, 1] _ (by decide)⟩

/-- Concrete sanity check accompanying C7: with entity 0 inside and entity 1 outside,
the summary is `in = [0]`, `out = [1]`, `count = 1`. -/
theorem summary_two_entities_concrete :
    summaryInZone (runTracker squarePoly distZero
        [(0, TrackerUpd.pos (.val (.num 5)) (.val (.num 5)) .amissing),
         (1, TrackerUpd.pos (.val (.num 20)) (.val (.num 20)) .amissing)]) = [0] ∧
      summaryOutZone [0, 1] (runTracker squarePoly distZero
        [(0, TrackerUpd.pos (.val (.num 5)) (.val (.num 5)) .amissing),
         (1, TrackerUpd.pos (.val (.num 20)) (.val (.num 20)) .amissing)]) = [1] ∧
      countInZone (runTracker squarePoly distZero
        [(0, TrackerUpd.pos (.val (.num 5)) (.val (.num 5)) .amissing),
         (1, TrackerUpd.pos (.val (.num 20)) (.val (.num 20)) .amissing)]) = 1 := by
  refine ⟨by decide, by decide, by decide⟩

end TrackerConcrete
